import Mathlib

/-!
Verification of the `LocalStorage` circular-buffer record store and of the
upload batching loop (`uploadAllData`) of the LocalOOP data-logger firmware.

The development shallowly embeds:
* the `SensorData` CSV encoding and decoding (src/include/SensorData.h),
* the EEPROM-backed ring store (src/src/LocalStorage.cpp, the variant whose
  persisted layout — 2-byte big-endian length prefixes, 10-byte header with
  version and checksum — matches the documented external interface),
* the ESP8266 upload cycle (src/src/esp8266_main.cpp, `uploadAllData`).

Machine integers are embedded as `Int`/`Nat` with explicit `% 2^w` at the
points where the C code truncates; `float` sensor values are embedded as
exact rationals, with the fixed 2-decimal `dtostrf` formatting and the C
library decimal parsers modelled over `Rat`.
-/

namespace LocalOOP

attribute [local semireducible] Rat.add Rat.mul Rat.sub Rat.inv

/-- One EEPROM image: a byte-addressable medium, one byte (0..255) per
address. Addresses are integers so that the out-of-range accesses the C code
can perform (for example with a negative record index) stay representable. -/
def Mem : Type := Int → Nat

/-- Model of `EEPROM.read`: a read yields a `uint8_t`. -/
def readB (m : Mem) (a : Int) : Nat := m a % 256

/-- Model of `EEPROM.write`: the stored value is truncated to a byte. -/
def writeB (m : Mem) (a : Int) (v : Nat) : Mem :=
  fun b => if b = a then v % 256 else m b

/-- Write a run of consecutive bytes starting at address `a`. -/
def writeBytes (m : Mem) (a : Int) : List Nat → Mem
  | [] => m
  | v :: vs => writeBytes (writeB m a v) (a + 1) vs

theorem emod_eq_mod (a b : Int) : a.emod b = a % b := rfl

theorem writeB_ne (m : Mem) (a : Int) (v : Nat) (x : Int) (h : x ≠ a) :
    writeB m a v x = m x := by
  simp [writeB, h]

theorem writeB_eq (m : Mem) (a : Int) (v : Nat) : writeB m a v a = v % 256 := by
  simp [writeB]

theorem writeBytes_outside (bs : List Nat) (m : Mem) (a : Int) (x : Int)
    (h : x < a ∨ a + bs.length ≤ x) : writeBytes m a bs x = m x := by
  induction bs generalizing m a with
  | nil => rfl
  | cons v vs ih =>
      have hxa : x ≠ a := by
        rcases h with h | h
        · exact ne_of_lt h
        · intro hx; simp [hx, List.length_cons] at h; omega
      have : writeBytes (writeB m a v) (a + 1) vs x = writeB m a v x := by
        apply ih
        rcases h with h | h
        · left; omega
        · right; simp [List.length_cons] at h; omega
      simpa [writeBytes, this] using writeB_ne m a v x hxa

theorem writeBytes_at (bs : List Nat) (m : Mem) (a : Int) (i : Nat)
    (h : i < bs.length) : writeBytes m a bs (a + i) = bs.getD i 0 % 256 := by
  induction bs generalizing m a i with
  | nil => simp at h
  | cons v vs ih =>
      cases i with
      | zero =>
          have : writeBytes (writeB m a v) (a + 1) vs a = writeB m a v a :=
            writeBytes_outside vs (writeB m a v) (a + 1) a (Or.inl (by omega))
          simpa [writeBytes, this] using writeB_eq m a v
      | succ j =>
          have hj : j < vs.length := by simpa [List.length_cons] using h
          have := ih (writeB m a v) (a + 1) j hj
          have harith : a + 1 + (j : Int) = a + ((j : Nat) + 1 : Nat) := by
            push_cast; ring
          simpa [writeBytes, harith] using this

/-- Decimal digit to its ASCII character. -/
def digitToChar (d : Nat) : Char := Char.ofNat (48 + d)

/-- Value of a decimal digit string, most significant digit first: the
accumulating loop at the heart of the C numeric parsers that the Arduino
String conversions call. -/
def digitsVal (l : List Char) : Nat := l.foldl (fun a c => 10 * a + (c.toNat - 48)) 0

/-- Decimal digits of `n`, most significant first. `fuel` bounds the
recursion; any `fuel ≥ n` yields all digits. -/
def natCharsAux : Nat → Nat → List Char
  | 0, _ => []
  | fuel + 1, n =>
      if n = 0 then [] else natCharsAux fuel (n / 10) ++ [digitToChar (n % 10)]

/-- Decimal rendering of an unsigned integer, as produced by Arduino's
String(unsigned long) and String(unsigned char) constructors. -/
def natChars (n : Nat) : List Char := if n = 0 then ['0'] else natCharsAux n n

theorem digitToChar_toNat (d : Nat) (h : d < 10) : (digitToChar d).toNat = 48 + d := by
  interval_cases d <;> decide

theorem digitToChar_isDigit (d : Nat) (h : d < 10) : (digitToChar d).isDigit = true := by
  interval_cases d <;> decide

theorem digitsVal_append_digit (l : List Char) (c : Char) :
    digitsVal (l ++ [c]) = 10 * digitsVal l + (c.toNat - 48) := by
  simp [digitsVal, List.foldl_append]

theorem natCharsAux_val (fuel n : Nat) (h : n ≤ fuel) :
    digitsVal (natCharsAux fuel n) = n := by
  induction fuel generalizing n with
  | zero => interval_cases n; simp [natCharsAux, digitsVal]
  | succ f ih =>
      by_cases hn : n = 0
      · simp [natCharsAux, hn, digitsVal]
      · have hdiv : n / 10 ≤ f := by
          have : n / 10 < n := Nat.div_lt_self (Nat.pos_of_ne_zero hn) (by omega)
          omega
        have hd : (digitToChar (n % 10)).toNat = 48 + n % 10 :=
          digitToChar_toNat _ (Nat.mod_lt _ (by omega))
        simp [natCharsAux, hn, digitsVal_append_digit, ih _ hdiv, hd]
        omega

theorem natChars_val (n : Nat) : digitsVal (natChars n) = n := by
  by_cases hn : n = 0
  · simp [natChars, hn, digitsVal]
  · simp [natChars, hn, natCharsAux_val n n le_rfl]

theorem natCharsAux_digits (fuel n : Nat) :
    ∀ c ∈ natCharsAux fuel n, c.isDigit = true := by
  induction fuel generalizing n with
  | zero => simp [natCharsAux]
  | succ f ih =>
      by_cases hn : n = 0
      · simp [natCharsAux, hn]
      · intro c hc
        simp only [natCharsAux, hn, if_false, List.mem_append, List.mem_singleton] at hc
        rcases hc with hc | hc
        · exact ih _ c hc
        · subst hc; exact digitToChar_isDigit _ (Nat.mod_lt _ (by omega))

theorem natChars_digits (n : Nat) : ∀ c ∈ natChars n, c.isDigit = true := by
  by_cases hn : n = 0
  · simp [natChars, hn]
  · simpa [natChars, hn] using natCharsAux_digits n n

theorem natChars_ne_nil (n : Nat) : natChars n ≠ [] := by
  by_cases hn : n = 0
  · simp [natChars, hn]
  · cases n with
    | zero => omega
    | succ k => simp [natChars, natCharsAux]

theorem isDigit_toNat_bounds (c : Char) (h : c.isDigit = true) :
    48 ≤ c.toNat ∧ c.toNat ≤ 57 := by
  simp only [Char.isDigit, Bool.and_eq_true, decide_eq_true_eq] at h
  obtain ⟨h1, h2⟩ := h
  exact ⟨h1, h2⟩

theorem isDigit_ne_comma (c : Char) (h : c.isDigit = true) : c ≠ ',' := by
  intro hc; subst hc; simp at h

theorem isDigit_ne_dot (c : Char) (h : c.isDigit = true) : c ≠ '.' := by
  intro hc; subst hc; simp at h

theorem isDigit_toNat_lt (c : Char) (h : c.isDigit = true) : c.toNat < 256 := by
  have := isDigit_toNat_bounds c h
  omega

/-- Greedy leading digit run of a string, with its decimal value: common core
of the C numeric parsers used by the Arduino String conversions. -/
def parseDigits (s : List Char) : Nat := digitsVal (s.takeWhile Char.isDigit)

/-- Model of strtoul(s, NULL, 10) as used on the timestamp field: value of
the leading digit run, saturating at ULONG_MAX (2^32 - 1 on both target
MCUs) on overflow. -/
def strtoulModel (s : List Char) : Nat := min (parseDigits s) (2 ^ 32 - 1)

/-- Model of Arduino String.toInt (strtol, 32-bit long) on the sign+digit
strings this code feeds it, saturating at LONG_MAX on overflow. -/
def toIntModel (s : List Char) : Int :=
  if s.head? = some '-' then -(min (parseDigits s.tail) (2 ^ 31) : Int)
  else (min (parseDigits s) (2 ^ 31 - 1) : Int)

/-- Magnitude part of the atof model: integer digit run, optional dot and
fraction digit run, read exactly into a rational. -/
def atofMag (s : List Char) : Rat :=
  let ip := s.takeWhile Char.isDigit
  let rest := s.dropWhile Char.isDigit
  match rest with
  | '.' :: t =>
      let fp := t.takeWhile Char.isDigit
      (digitsVal ip : Rat) + (digitsVal fp : Rat) / (10 : Rat) ^ fp.length
  | _ => (digitsVal ip : Rat)

/-- Model of Arduino String.toFloat (atof) on the plain fixed-point decimal
strings this code produces: optional minus sign, then magnitude. -/
def atofModel (s : List Char) : Rat :=
  if s.head? = some '-' then -(atofMag s.tail) else atofMag s

/-- Hundredths that dtostrf prints for value `q` at 2 decimal places: the
ESP8266 core rounds the magnitude half away from zero by adding 0.005
before truncating. -/
def round2away (q : Rat) : Int :=
  if 0 ≤ q then Int.floor (q * 100 + 1 / 2) else -Int.floor (-q * 100 + 1 / 2)

/-- Rounding to two decimal places, the display precision of the encoding. -/
def round2 (q : Rat) : Rat := (round2away q : Rat) / 100

/-- Two-digit zero-padded rendering of the fraction part printed by dtostrf
at 2 decimal places. -/
def twoDigits (m : Nat) : List Char := [digitToChar (m / 10), digitToChar (m % 10)]

/-- Model of Arduino String(float, 2) (dtostrf with 2 decimals): optional
sign taken from the value, then integer part, dot, and two fraction digits
of the magnitude rounded half away from zero. -/
def ratFormat2 (q : Rat) : List Char :=
  let n := (round2away q).natAbs
  (if q < 0 then ['-'] else []) ++ natChars (n / 100) ++ '.' :: twoDigits (n % 100)

/-- SENSOR_CONFIG_TEMP_WEIGHT is the configuration selected in
SystemConfig.h, fixing the number of serialized sensor values. -/
def SENSOR_COUNT : Nat := 2

/-- The SensorData struct (SensorData.h). The `float values[6]` array is a
rational list; `timestamp` holds the value of the `unsigned long` field and
`status` the value of the `uint8_t` field. The relay and kadarAir fields
are never serialized to CSV and play no part in the claims, so they are
omitted. -/
structure SensorData where
  values : List Rat
  timestamp : Nat
  status : Nat
deriving DecidableEq, Repr

/-- Array access `values[i]` (always in bounds in the C code). -/
def SensorData.val (d : SensorData) (i : Nat) : Rat := d.values.getD i 0

/-- SensorData.toCSV: timestamp, the SENSOR_COUNT sensor values at 2
decimals, and status, comma separated. -/
def SensorData.toCSV (d : SensorData) : List Char :=
  natChars d.timestamp
    ++ (List.range SENSOR_COUNT).foldl (fun acc i => acc ++ ',' :: ratFormat2 (d.val i)) []
    ++ ',' :: natChars d.status

/-- Model of String.indexOf(c): index of the first occurrence, if any. -/
def findChar (c : Char) : List Char → Option Nat
  | [] => none
  | a :: as => if a = c then some 0 else (findChar c as).map (· + 1)

/-- Model of String.indexOf(c, pos): absolute index of the first occurrence
at or after `pos`. -/
def charIndexFrom (c : Char) (l : List Char) (pos : Nat) : Option Nat :=
  (findChar c (l.drop pos)).map (· + pos)

/-- Model of String.substring(a, b): the characters of [a, b). -/
def substr (l : List Char) (a b : Nat) : List Char := (l.drop a).take (b - a)

/-- The value-parsing for-loop of SensorData.fromCSV. `k` counts the
remaining iterations (`k + i = SENSOR_COUNT` at every call), making the
recursion structural while the branch conditions remain those the C loop
evaluates on `i`. -/
def fromCSVLoop (csv : List Char) : Nat → Nat → Nat → List Rat → Option (List Rat × Nat)
  | 0, _, pos, vals => some (vals, pos)
  | k + 1, i, pos, vals =>
    let nextComma := charIndexFrom ',' csv pos
    if nextComma = none ∧ i < SENSOR_COUNT - 1 then none
    else if i = SENSOR_COUNT - 1 then
      match charIndexFrom ',' csv pos with
      | none => none
      | some statusComma =>
          fromCSVLoop csv k (i + 1) (statusComma + 1)
            (vals.set i (atofModel (substr csv pos statusComma)))
    else
      match nextComma with
      | none => none
      | some nc =>
          fromCSVLoop csv k (i + 1) (nc + 1) (vals.set i (atofModel (substr csv pos nc)))

/-- SensorData.fromCSV: parse timestamp, the sensor values and status from a
comma separated string, filling the receiver `d` (the C function mutates it
in place and returns false on malformed input, modelled as `none`). The
assignment to the uint8 status field truncates modulo 256. -/
def SensorData.fromCSV (d : SensorData) (csv : List Char) : Option SensorData :=
  match charIndexFrom ',' csv 0 with
  | none => none
  | some nextComma =>
    let ts := strtoulModel (substr csv 0 nextComma)
    match fromCSVLoop csv SENSOR_COUNT 0 (nextComma + 1) d.values with
    | none => none
    | some (vals, pos) =>
        some { values := vals, timestamp := ts,
               status := ((toIntModel (csv.drop pos)) % 256).toNat }

theorem isDigit_ne_minus (c : Char) (h : c.isDigit = true) : c ≠ '-' := by
  intro hc; subst hc; simp at h

theorem takeWhile_digits_all (l : List Char) (h : ∀ c ∈ l, c.isDigit = true) :
    l.takeWhile Char.isDigit = l ∧ l.dropWhile Char.isDigit = [] := by
  induction l with
  | nil => simp
  | cons a as ih =>
      have ha : a.isDigit = true := h a (by simp)
      have := ih (fun c hc => h c (by simp [hc]))
      simp [List.takeWhile, List.dropWhile, ha, this.1, this.2]

theorem takeWhile_digits_stop (xs : List Char) (y : Char) (r : List Char)
    (hxs : ∀ c ∈ xs, c.isDigit = true) (hy : y.isDigit = false) :
    (xs ++ y :: r).takeWhile Char.isDigit = xs ∧
      (xs ++ y :: r).dropWhile Char.isDigit = y :: r := by
  induction xs with
  | nil => simp [List.takeWhile, List.dropWhile, hy]
  | cons a as ih =>
      have ha : a.isDigit = true := hxs a (by simp)
      have := ih (fun c hc => hxs c (by simp [hc]))
      simp [List.takeWhile, List.dropWhile, ha, this.1, this.2]

theorem parseDigits_natChars (n : Nat) : parseDigits (natChars n) = n := by
  have := takeWhile_digits_all (natChars n) (natChars_digits n)
  simp [parseDigits, this.1, natChars_val]

theorem strtoulModel_natChars (n : Nat) (h : n < 2 ^ 32) :
    strtoulModel (natChars n) = n := by
  simp [strtoulModel, parseDigits_natChars]
  omega

theorem natChars_head_digit (n : Nat) :
    ∃ c t, natChars n = c :: t ∧ c.isDigit = true := by
  rcases hne : natChars n with _ | ⟨c, t⟩
  · exact absurd hne (natChars_ne_nil n)
  · exact ⟨c, t, rfl, natChars_digits n c (by simp [hne])⟩

theorem toIntModel_natChars (n : Nat) (h : n < 2 ^ 31 - 1) :
    toIntModel (natChars n) = n := by
  obtain ⟨c, t, hct, hc⟩ := natChars_head_digit n
  have hmin : c ≠ '-' := isDigit_ne_minus c hc
  have hhd : (natChars n).head? ≠ some '-' := by simp [hct, hmin]
  rw [toIntModel, if_neg hhd, parseDigits_natChars]
  omega

theorem twoDigits_digits (m : Nat) (h : m < 100) : ∀ c ∈ twoDigits m, c.isDigit = true := by
  intro c hc
  have h1 : m / 10 < 10 := by omega
  have h2 : m % 10 < 10 := Nat.mod_lt _ (by omega)
  simp only [twoDigits, List.mem_cons, List.mem_singleton, List.not_mem_nil, or_false] at hc
  rcases hc with hc | hc <;> subst hc
  · exact digitToChar_isDigit _ h1
  · exact digitToChar_isDigit _ h2

theorem digitsVal_twoDigits (m : Nat) (h : m < 100) : digitsVal (twoDigits m) = m := by
  have h1 : m / 10 < 10 := by omega
  have h2 : m % 10 < 10 := Nat.mod_lt _ (by omega)
  simp [twoDigits, digitsVal, digitToChar_toNat _ h1, digitToChar_toNat _ h2]
  omega

theorem atofMag_format (a m : Nat) (hm : m < 100) :
    atofMag (natChars a ++ '.' :: twoDigits m) = (a : Rat) + (m : Rat) / 100 := by
  have hsplit := takeWhile_digits_stop (natChars a) '.' (twoDigits m)
    (natChars_digits a) (by decide)
  have htwo := takeWhile_digits_all (twoDigits m) (twoDigits_digits m hm)
  rw [atofMag]
  simp only [hsplit.1, hsplit.2, htwo.1, natChars_val, digitsVal_twoDigits m hm]
  norm_num [twoDigits]

theorem round2away_nonneg (q : Rat) (h : 0 ≤ q) : 0 ≤ round2away q := by
  rw [round2away, if_pos h]
  have : (0 : Rat) ≤ q * 100 + 1 / 2 := by positivity
  exact_mod_cast Int.le_floor.mpr (by exact_mod_cast this)

theorem round2away_nonpos (q : Rat) (h : q < 0) : round2away q ≤ 0 := by
  rw [round2away, if_neg (not_le.mpr h)]
  have h1 : (0 : Rat) ≤ -q * 100 + 1 / 2 := by nlinarith
  have : (0 : Int) ≤ Int.floor (-q * 100 + 1 / 2) :=
    Int.le_floor.mpr (by exact_mod_cast h1)
  omega

theorem atof_ratFormat2 (q : Rat) : atofModel (ratFormat2 q) = round2 q := by
  by_cases hq : q < 0
  · have hn : ((round2away q).natAbs : Int) = -round2away q := by
      have := round2away_nonpos q hq
      omega
    set n := (round2away q).natAbs with hndef
    have hnd : n = 100 * (n / 100) + n % 100 := (Nat.div_add_mod n 100).symm
    have hmag : atofMag (natChars (n / 100) ++ '.' :: twoDigits (n % 100)) =
        (n : Rat) / 100 := by
      rw [atofMag_format _ _ (Nat.mod_lt _ (by omega))]
      have hsum : (n : Rat) = ((n / 100 : Nat) : Rat) * 100 + ((n % 100 : Nat) : Rat) := by
        conv_lhs => rw [hnd]
        push_cast
        ring
      rw [hsum]; ring
    have : ratFormat2 q = '-' :: (natChars (n / 100) ++ '.' :: twoDigits (n % 100)) := by
      simp [ratFormat2, hq, hndef]
    have hcast : ((n : Nat) : Rat) = -((round2away q : Int) : Rat) := by exact_mod_cast hn
    rw [atofModel, this, if_pos (by simp), List.tail_cons, hmag, round2, hcast]
    ring
  · have hq' : 0 ≤ q := not_lt.mp hq
    have hn : ((round2away q).natAbs : Int) = round2away q := by
      have := round2away_nonneg q hq'
      omega
    set n := (round2away q).natAbs with hndef
    have hform : ratFormat2 q = natChars (n / 100) ++ '.' :: twoDigits (n % 100) := by
      simp [ratFormat2, hq, hndef]
    obtain ⟨c, t, hct, hc⟩ := natChars_head_digit (n / 100)
    have hhd : (ratFormat2 q).head? ≠ some '-' := by
      simp [hform, hct, isDigit_ne_minus c hc]
    rw [atofModel, if_neg hhd, hform,
      atofMag_format _ _ (Nat.mod_lt _ (by omega)), round2]
    have hcast : ((n : Nat) : Rat) = (round2away q : Rat) := by exact_mod_cast hn
    have hnd : n = 100 * (n / 100) + n % 100 := (Nat.div_add_mod n 100).symm
    have hsum : (n : Rat) = ((n / 100 : Nat) : Rat) * 100 + ((n % 100 : Nat) : Rat) := by
      conv_lhs => rw [hnd]
      push_cast
      ring
    rw [← hcast, hsum]
    ring

theorem findChar_append (xs : List Char) (c : Char) (r : List Char) (h : c ∉ xs) :
    findChar c (xs ++ c :: r) = some xs.length := by
  induction xs with
  | nil => simp [findChar]
  | cons a as ih =>
      have ha : a ≠ c := by intro hac; exact h (by simp [hac])
      have := ih (fun hc => h (by simp [hc]))
      simp [findChar, ha, this]

theorem charIndexFrom_field (p f : List Char) (r : List Char)
    (hf : ',' ∉ f) :
    charIndexFrom ',' (p ++ (f ++ ',' :: r)) p.length = some (f.length + p.length) ∧
    substr (p ++ (f ++ ',' :: r)) p.length (f.length + p.length) = f ∧
    (p ++ (f ++ ',' :: r)).drop (f.length + p.length + 1) = r := by
  have hdrop : (p ++ (f ++ ',' :: r)).drop p.length = f ++ ',' :: r :=
    List.drop_left p (f ++ ',' :: r)
  refine ⟨?_, ?_, ?_⟩
  · simp [charIndexFrom, hdrop, findChar_append f ',' r hf]
  · rw [substr, hdrop]
    have : f.length + p.length - p.length = f.length := by omega
    rw [this]
    exact List.take_left f (',' :: r)
  · have h1 : f.length + p.length + 1 = (f.length + 1) + p.length := by omega
    calc (p ++ (f ++ ',' :: r)).drop (f.length + p.length + 1)
        = ((p ++ (f ++ ',' :: r)).drop p.length).drop (f.length + 1) := by
          rw [List.drop_drop]; congr 1; omega
      _ = (f ++ ',' :: r).drop (f.length + 1) := by rw [hdrop]
      _ = ((f ++ ',' :: r).drop f.length).drop 1 := by
          rw [List.drop_drop]
      _ = r := by rw [List.drop_left f (',' :: r)]; simp

theorem natChars_no_comma (n : Nat) : ',' ∉ natChars n := by
  intro h
  exact isDigit_ne_comma ',' (natChars_digits n ',' h) rfl

theorem ratFormat2_mem (q : Rat) (c : Char) (h : c ∈ ratFormat2 q) :
    c.isDigit = true ∨ c = '.' ∨ c = '-' := by
  simp only [ratFormat2] at h
  rcases List.mem_append.mp h with h1 | h1
  · rcases List.mem_append.mp h1 with h2 | h2
    · by_cases hq : q < 0
      · right; right; simpa [hq] using h2
      · simp [hq] at h2
    · left; exact natChars_digits _ c h2
  · rcases List.mem_cons.mp h1 with h2 | h2
    · right; left; exact h2
    · left; exact twoDigits_digits _ (Nat.mod_lt _ (by omega)) c h2

theorem ratFormat2_no_comma (q : Rat) : ',' ∉ ratFormat2 q := by
  intro h
  rcases ratFormat2_mem q ',' h with h1 | h1 | h1 <;> simp at h1

/-- Restated field-extraction lemma, with the scan position given as an
arbitrary expression equal to the length of the leading part. -/
theorem charIndexFrom_field_at (p f r csv : List Char) (pos : Nat)
    (hcsv : csv = p ++ (f ++ ',' :: r)) (hpos : pos = p.length) (hf : ',' ∉ f) :
    charIndexFrom ',' csv pos = some (f.length + pos) ∧
    substr csv pos (f.length + pos) = f ∧
    csv.drop (f.length + pos + 1) = r := by
  subst hcsv; subst hpos
  exact charIndexFrom_field p f r hf

theorem toCSV_shape (r : SensorData) :
    r.toCSV = natChars r.timestamp ++
      (',' :: (ratFormat2 (r.val 0) ++
        (',' :: (ratFormat2 (r.val 1) ++ (',' :: natChars r.status))))) := by
  simp [SensorData.toCSV, SENSOR_COUNT, show List.range 2 = [0, 1] from rfl]

theorem fromCSV_toCSV (d r : SensorData) (hts : r.timestamp < 2 ^ 32)
    (hst : r.status < 256) :
    SensorData.fromCSV d r.toCSV =
      some { values := (d.values.set 0 (round2 (r.val 0))).set 1 (round2 (r.val 1)),
             timestamp := r.timestamp, status := r.status } := by
  obtain ⟨h1idx, h1sub, h1drop⟩ :=
    charIndexFrom_field_at [] (natChars r.timestamp)
      (ratFormat2 (r.val 0) ++ (',' :: (ratFormat2 (r.val 1) ++ (',' :: natChars r.status))))
      r.toCSV 0 (by simpa using toCSV_shape r) rfl (natChars_no_comma _)
  obtain ⟨h2idx, h2sub, h2drop⟩ :=
    charIndexFrom_field_at (natChars r.timestamp ++ [',']) (ratFormat2 (r.val 0))
      (ratFormat2 (r.val 1) ++ (',' :: natChars r.status))
      r.toCSV ((natChars r.timestamp).length + 0 + 1)
      (by rw [toCSV_shape r]; simp) (by simp) (ratFormat2_no_comma _)
  obtain ⟨h3idx, h3sub, h3drop⟩ :=
    charIndexFrom_field_at
      (natChars r.timestamp ++ (',' :: (ratFormat2 (r.val 0) ++ [','])))
      (ratFormat2 (r.val 1)) (natChars r.status) r.toCSV
      ((ratFormat2 (r.val 0)).length + ((natChars r.timestamp).length + 0 + 1) + 1)
      (by rw [toCSV_shape r]; simp) (by simp; omega) (ratFormat2_no_comma _)
  have hstatus : ((toIntModel (natChars r.status)) % 256).toNat = r.status := by
    rw [toIntModel_natChars r.status (by omega)]
    show ((r.status : Int) % 256).toNat = r.status
    rw [Int.emod_eq_of_lt (by omega) (by exact_mod_cast hst)]
    simp
  simp only [Nat.add_zero] at h1idx h1sub h2idx h2sub h2drop h3idx h3sub h3drop
  simp [SensorData.fromCSV, SENSOR_COUNT, h1idx, h1sub, h2idx, h2sub, h3idx, h3sub,
    h3drop, fromCSVLoop, atof_ratFormat2, hstatus, strtoulModel_natChars r.timestamp hts]

/-- Header layout: magic(2) + version(1) + index(2) + count(2) + checksum(1)
+ reserved(2). -/
def HEADER_SIZE : Int := 10

/-- First byte address of the record slots. -/
def RECORD_START : Int := 10

/-- Expected format version byte. -/
def STORAGE_VERSION : Nat := 1

/-- The LocalStorage object state, together with the function-static
`writeCounter` of saveData (a uint8_t that persists across calls) and the
EEPROM size (`EEPROM.length()`, the allocation passed to EEPROM.begin). -/
structure StorageState where
  maxRecords : Int
  recordSize : Int
  currentIndex : Int
  recordCount : Int
  isInitialized : Bool
  writeCounter : Nat
  eepromLen : Int
deriving DecidableEq, Repr

/-- LocalStorage::calculateAddress. -/
def calculateAddress (st : StorageState) (index : Int) : Int :=
  RECORD_START + index * st.recordSize

/-- The XOR fold both writeHeader and readHeader compute over magic,
version, cursor bytes and count bytes. In the C code the first shift
operand is unmasked, hence `idx / 256` rather than `idx / 256 % 256`. -/
def headerChecksum (idx cnt : Nat) : Nat :=
  0xAB ^^^ 0xCD ^^^ STORAGE_VERSION ^^^ (idx / 256) ^^^ (idx % 256) ^^^
    (cnt / 256) ^^^ (cnt % 256)

/-- The ten header bytes writeHeader stores for cursor `idx` and count
`cnt`. The C shifts act on nonnegative int values here, so they are
div/mod by 256. -/
def headerBytes (idx cnt : Nat) : List Nat :=
  [0xAB, 0xCD, STORAGE_VERSION,
   idx / 256 % 256, idx % 256,
   cnt / 256 % 256, cnt % 256,
   headerChecksum idx cnt,
   0, 0]

/-- LocalStorage::writeHeader, as a function of the cursor and count values
being persisted: bytes 0..9 of the medium. -/
def writeHeaderMem (idx cnt : Nat) (m : Mem) : Mem :=
  writeBytes m 0 (headerBytes idx cnt)

/-- LocalStorage::writeHeader on the object state (the member ints are
nonnegative whenever the code calls this). -/
def writeHeader (st : StorageState) (m : Mem) : Mem :=
  writeHeaderMem st.currentIndex.toNat st.recordCount.toNat m

/-- LocalStorage::readHeader. Returns the bool result and the updated
object: currentIndex/recordCount members are assigned before the checksum
test, and the bounds clamping runs only on the all-checks-passed path,
exactly as in the C code. -/
def readHeader (st : StorageState) (m : Mem) : Bool × StorageState :=
  if readB m 0 ≠ 0xAB ∨ readB m 1 ≠ 0xCD then (false, st)
  else if readB m 2 ≠ STORAGE_VERSION then (false, st)
  else if readB m 7 ≠
      headerChecksum (readB m 3 * 256 + readB m 4) (readB m 5 * 256 + readB m 6) then
    (false, { st with currentIndex := (readB m 3 * 256 + readB m 4 : Nat),
                      recordCount := (readB m 5 * 256 + readB m 6 : Nat) })
  else
    (true,
     { st with
       currentIndex :=
         if ((readB m 3 * 256 + readB m 4 : Nat) : Int) ≥ st.maxRecords then 0
         else ((readB m 3 * 256 + readB m 4 : Nat) : Int),
       recordCount :=
         if ((readB m 5 * 256 + readB m 6 : Nat) : Int) > st.maxRecords then 0
         else ((readB m 5 * 256 + readB m 6 : Nat) : Int) })

/-- LocalStorage::clearStorage: zero the ten header bytes, reset the object
counters, rewrite the header. The C function always returns true. -/
def clearStorage (st : StorageState) (m : Mem) : StorageState × Mem :=
  let m1 := writeBytes m 0 (List.replicate 10 0)
  let st1 := { st with currentIndex := 0, recordCount := 0 }
  (st1, writeHeader st1 m1)

/-- LocalStorage::initialize, ESP8266 build: required-size check against the
4096-byte limit, EEPROM.begin allocation (recorded in eepromLen), header
probe, first-time clearStorage on probe failure. -/
def initializeStorage (st : StorageState) (m : Mem) : Bool × StorageState × Mem :=
  if HEADER_SIZE + st.maxRecords * st.recordSize > 4096 then (false, st, m)
  else
    let st0 := { st with eepromLen := HEADER_SIZE + st.maxRecords * st.recordSize }
    match readHeader st0 m with
    | (true, st1) => (true, { st1 with isInitialized := true }, m)
    | (false, st1) =>
        let (st2, m2) := clearStorage st1 m
        (true, { st2 with isInitialized := true }, m2)

/-- Outcome of LocalStorage::saveData, distinguishing the handleError paths
of the C function. -/
inductive SaveResult
  | ok
  | notInitialized
  | tooLarge
  | overflow
deriving DecidableEq, Repr

/-- The slot-writing part of saveData: 2-byte big-endian length header
(`dataLen` is the uint16_t the length is stored into), the CSV payload
bytes, and the zero fill of the rest of the slot. -/
def writeRecordSlot (m : Mem) (address : Int) (csvData : List Char)
    (recordSize : Int) : Mem :=
  let dataLen := csvData.length % 2 ^ 16
  let m1 := writeB m address (dataLen / 256 % 256)
  let m2 := writeB m1 (address + 1) (dataLen % 256)
  let m3 := writeBytes m2 (address + 2) (csvData.map Char.toNat)
  writeBytes m3 (address + ((csvData.length : Int) + 2))
    (List.replicate (recordSize - ((csvData.length : Int) + 2)).toNat 0)

/-- LocalStorage::saveData, ESP8266 variant (2-byte big-endian length
header). The size guard compares unsigned 32-bit values, hence the emod on
`recordSize - 2`; the EEPROM.commit call has no observable effect in this
memory model. -/
def saveData (st : StorageState) (m : Mem) (d : SensorData) :
    SaveResult × StorageState × Mem :=
  if st.isInitialized = false then (.notInitialized, st, m)
  else
    let csvData := d.toCSV
    if (csvData.length : Int) > (st.recordSize - 2) % (2 ^ 32) then (.tooLarge, st, m)
    else
      let address := calculateAddress st st.currentIndex
      if address + st.recordSize > st.eepromLen then (.overflow, st, m)
      else
        let m4 := writeRecordSlot m address csvData st.recordSize
        let newIndex := (st.currentIndex + 1) % st.maxRecords
        let newCount := if st.recordCount < st.maxRecords then st.recordCount + 1
                        else st.recordCount
        let wc := (st.writeCounter + 1) % 256
        if 10 ≤ wc ∨ newIndex = 0 then
          let st1 :=
            { st with currentIndex := newIndex, recordCount := newCount, writeCounter := 0 }
          (.ok, st1, writeHeader st1 m4)
        else
          let st1 :=
            { st with currentIndex := newIndex, recordCount := newCount, writeCounter := wc }
          (.ok, st1, m4)

/-- Outcome of LocalStorage::retrieveData, distinguishing the handleError
paths of the C function. -/
inductive RetrieveResult
  | ok (d : SensorData)
  | notInitialized
  | indexOutOfRange
  | invalidLength
  | decodeFailed
deriving DecidableEq, Repr

/-- LocalStorage::retrieveData: reads physical slot `index`; `d` is the
caller-supplied record that fromCSV fills in. Only `index >= recordCount`
is rejected by the range guard — a negative index passes it, exactly as in
the C code, whose index parameter is a signed int. -/
def retrieveData (st : StorageState) (m : Mem) (d : SensorData) (index : Int) :
    RetrieveResult :=
  if st.isInitialized = false then .notInitialized
  else if index ≥ st.recordCount then .indexOutOfRange
  else if readB m (calculateAddress st index) * 256 +
        readB m (calculateAddress st index + 1) = 0 ∨
      ((readB m (calculateAddress st index) * 256 +
        readB m (calculateAddress st index + 1) : Nat) : Int) >
        (st.recordSize - 2) % (2 ^ 32) then
    .invalidLength
  else
    match d.fromCSV ((List.range (readB m (calculateAddress st index) * 256 +
        readB m (calculateAddress st index + 1))).map
      (fun (i : Nat) => Char.ofNat (readB m (calculateAddress st index + 2 + (i : Int))))) with
    | some d2 => .ok d2
    | none => .decodeFailed

/-- LocalStorage::getRecordCount. -/
def getRecordCount (st : StorageState) : Int := st.recordCount

/-- LocalStorage::isFull. -/
def isFull (st : StorageState) : Bool := st.recordCount ≥ st.maxRecords

/-- LocalStorage::getFreeSpace. -/
def getFreeSpace (st : StorageState) : Int := st.maxRecords - st.recordCount

/-- BATCH_SIZE of uploadAllData: at most 10 records per cycle. -/
def BATCH_SIZE : Nat := 10

/-- Outcome of one attempted upload of one record at the transport
boundary, as distinguished by the error handling in uploadAllData:
patchDocument succeeded; patchDocument failed with an errorReason
containing NOT_FOUND and the createDocument fallback succeeded; the same
but the fallback also failed; or any other patchDocument failure. -/
inductive UploadOutcome
  | success
  | notFoundCreateOk
  | notFoundCreateFail
  | otherFail
deriving DecidableEq, Repr

/-- The record loop of uploadAllData. `fuel` counts the remaining
iterations (`fuel + i = BATCH_SIZE` at every call, so the structural fuel
never ends the loop before its own `i < BATCH_SIZE` test does). Returns
the uploaded count and the list of record indices that reached the
patchDocument call, in attempt order. -/
def uploadLoop (st : StorageState) (m : Mem) (outcome : Nat → UploadOutcome)
    (total : Int) (d0 : SensorData) :
    Nat → Nat → Nat → List Nat → Nat × List Nat
  | 0, _, uploaded, attempted => (uploaded, attempted)
  | fuel + 1, i, uploaded, attempted =>
      if (i : Int) < total ∧ i < BATCH_SIZE then
        match retrieveData st m d0 (i : Int) with
        | .ok _ =>
            match outcome i with
            | .success =>
                uploadLoop st m outcome total d0 fuel (i + 1) (uploaded + 1) (attempted ++ [i])
            | .notFoundCreateOk =>
                uploadLoop st m outcome total d0 fuel (i + 1) (uploaded + 1) (attempted ++ [i])
            | .notFoundCreateFail =>
                uploadLoop st m outcome total d0 fuel (i + 1) uploaded (attempted ++ [i])
            | .otherFail => (uploaded, attempted ++ [i])
        | _ => uploadLoop st m outcome total d0 fuel (i + 1) uploaded attempted
      else (uploaded, attempted)

/-- uploadAllData (esp8266_main.cpp). The three booleans are the guard
flags it tests; `outcome` is the transport boundary for this cycle; `d0`
is the stack SensorData the loop retrieves into. Returns the uploaded
count, the number of peer CLEAR signals printed, the store and memory
afterwards, and the attempted-index list. The `if (!wifiConnected) break`
inside the C loop is unreachable (nothing in the function writes
wifiConnected), so it has no counterpart here. -/
def uploadAllData (wifi fbReady fbOk : Bool) (st : StorageState) (m : Mem)
    (outcome : Nat → UploadOutcome) (d0 : SensorData) :
    Nat × Nat × StorageState × Mem × List Nat :=
  if wifi = false then (0, 0, st, m, [])
  else if fbReady = false then (0, 0, st, m, [])
  else if fbOk = false then (0, 0, st, m, [])
  else
    let totalRecords := st.recordCount
    let pair := uploadLoop st m outcome totalRecords d0 BATCH_SIZE 0 0 []
    if pair.1 = BATCH_SIZE ∨ (pair.1 : Int) = totalRecords then
      let cm := clearStorage st m
      (pair.1, 1, cm.1, cm.2, pair.2)
    else (pair.1, 0, st, m, pair.2)

/-- Iterated saveData over a list of records (ignoring each call's result
flag, as every caller in the firmware may). -/
def saveList (st : StorageState) (m : Mem) : List SensorData → StorageState × Mem
  | [] => (st, m)
  | r :: rs =>
      let x := saveData st m r
      saveList x.2.1 x.2.2 rs

theorem writeHeaderMem_outside (idx cnt : Nat) (m : Mem) (a : Int)
    (h : a < 0 ∨ 10 ≤ a) : writeHeaderMem idx cnt m a = m a := by
  apply writeBytes_outside
  rcases h with h | h
  · left; omega
  · right; simp only [headerBytes, List.length_cons, List.length_nil]; omega

theorem writeHeaderMem_readB (idx cnt : Nat) (m : Mem) (i : Nat) (hi : i < 10) :
    readB (writeHeaderMem idx cnt m) (i : Int) = (headerBytes idx cnt).getD i 0 % 256 := by
  have hlen : i < (headerBytes idx cnt).length := by
    simp only [headerBytes, List.length_cons, List.length_nil]; omega
  have h := writeBytes_at (headerBytes idx cnt) m 0 i hlen
  rw [readB, writeHeaderMem, show ((i : Nat) : Int) = 0 + (i : Nat) from by omega, h]
  omega

theorem writeRecordSlot_outside (m : Mem) (addr : Int) (csv : List Char)
    (recS : Int) (hlen : (csv.length : Int) ≤ recS - 2) (a : Int)
    (h : a < addr ∨ addr + recS ≤ a) : writeRecordSlot m addr csv recS a = m a := by
  have hfill : (recS - ((csv.length : Int) + 2)).toNat = (recS - (csv.length : Int) - 2).toNat := by
    congr 1; omega
  rw [writeRecordSlot]
  rw [writeBytes_outside]
  rw [writeBytes_outside]
  rw [writeB_ne, writeB_ne]
  · rcases h with h | h
    · intro hc; omega
    · intro hc; omega
  · rcases h with h | h
    · intro hc; omega
    · intro hc; omega
  · rcases h with h | h
    · left; omega
    · right; rw [List.length_map]; omega
  · rcases h with h | h
    · left; omega
    · right
      rw [List.length_replicate]
      have h2 : ((recS - ((csv.length : Int) + 2)).toNat : Int) = recS - (csv.length : Int) - 2 := by
        omega
      omega

theorem clearStorage_state (st : StorageState) (m : Mem) :
    (clearStorage st m).1 = { st with currentIndex := 0, recordCount := 0 } := rfl

/-- The commit condition of saveData for pre-state `st`: the incremented
static counter reached 10, or the advanced cursor wrapped to 0. -/
def commitsHeader (st : StorageState) : Prop :=
  10 ≤ (st.writeCounter + 1) % 256 ∨ (st.currentIndex + 1) % st.maxRecords = 0

instance (st : StorageState) : Decidable (commitsHeader st) := by
  rw [commitsHeader]; infer_instance

/-- The post state of a successful saveData. -/
def savePostState (st : StorageState) : StorageState :=
  { st with
    currentIndex := (st.currentIndex + 1) % st.maxRecords,
    recordCount :=
      if st.recordCount < st.maxRecords then st.recordCount + 1 else st.recordCount,
    writeCounter := if commitsHeader st then 0 else (st.writeCounter + 1) % 256 }

/-- The post memory of a successful saveData. -/
def savePostMem (st : StorageState) (m : Mem) (d : SensorData) : Mem :=
  let m4 := writeRecordSlot m (calculateAddress st st.currentIndex) d.toCSV st.recordSize
  if commitsHeader st then writeHeader (savePostState st) m4 else m4

theorem saveData_branches (st : StorageState) (m : Mem) (d : SensorData) :
    (st.isInitialized = false ∧ saveData st m d = (.notInitialized, st, m)) ∨
    (st.isInitialized = true ∧
      (st.recordSize - 2) % (2 ^ 32) < (d.toCSV.length : Int) ∧
      saveData st m d = (.tooLarge, st, m)) ∨
    (st.isInitialized = true ∧
      (d.toCSV.length : Int) ≤ (st.recordSize - 2) % (2 ^ 32) ∧
      st.eepromLen < calculateAddress st st.currentIndex + st.recordSize ∧
      saveData st m d = (.overflow, st, m)) ∨
    (st.isInitialized = true ∧
      (d.toCSV.length : Int) ≤ (st.recordSize - 2) % (2 ^ 32) ∧
      calculateAddress st st.currentIndex + st.recordSize ≤ st.eepromLen ∧
      saveData st m d = (.ok, savePostState st, savePostMem st m d)) := by
  by_cases h1 : st.isInitialized = false
  · left; exact ⟨h1, by rw [saveData, if_pos h1]⟩
  · have h1t : st.isInitialized = true := by
      cases hb : st.isInitialized
      · exact absurd hb h1
      · rfl
    by_cases h2 : (st.recordSize - 2) % (2 ^ 32) < (d.toCSV.length : Int)
    · right; left
      refine ⟨h1t, h2, ?_⟩
      rw [saveData, if_neg h1, if_pos (by exact_mod_cast h2)]
    · by_cases h3 : st.eepromLen < calculateAddress st st.currentIndex + st.recordSize
      · right; right; left
        refine ⟨h1t, by omega, h3, ?_⟩
        rw [saveData, if_neg h1, if_neg (by omega), if_pos (by omega)]
      · right; right; right
        refine ⟨h1t, by omega, by omega, ?_⟩
        rw [saveData, if_neg h1, if_neg (by omega), if_neg (by omega)]
        by_cases h4 : commitsHeader st
        · rw [if_pos (by simpa [commitsHeader] using h4)]
          simp only [savePostState, savePostMem, if_pos h4]
        · rw [if_neg (by simpa [commitsHeader] using h4)]
          simp only [savePostState, savePostMem, if_neg h4]

theorem saveData_fields (st : StorageState) (m : Mem) (d : SensorData) :
    (saveData st m d).2.1.maxRecords = st.maxRecords ∧
    (saveData st m d).2.1.recordSize = st.recordSize ∧
    (saveData st m d).2.1.isInitialized = st.isInitialized ∧
    (saveData st m d).2.1.eepromLen = st.eepromLen := by
  rcases saveData_branches st m d with ⟨-, h⟩ | ⟨-, -, h⟩ | ⟨-, -, -, h⟩ | ⟨-, -, -, h⟩ <;>
    rw [h] <;> simp [savePostState]

theorem saveData_idx_cnt (st : StorageState) (m : Mem) (d : SensorData) :
    ((saveData st m d).2.1.currentIndex = st.currentIndex ∧
      (saveData st m d).2.1.recordCount = st.recordCount) ∨
    ((saveData st m d).2.1.currentIndex = (st.currentIndex + 1) % st.maxRecords ∧
      (saveData st m d).2.1.recordCount =
        (if st.recordCount < st.maxRecords then st.recordCount + 1 else st.recordCount)) := by
  rcases saveData_branches st m d with ⟨-, h⟩ | ⟨-, -, h⟩ | ⟨-, -, -, h⟩ | ⟨-, -, -, h⟩
  · left; rw [h]; exact ⟨rfl, rfl⟩
  · left; rw [h]; exact ⟨rfl, rfl⟩
  · left; rw [h]; exact ⟨rfl, rfl⟩
  · right; rw [h]; exact ⟨rfl, rfl⟩

theorem saveData_ok_spec (st : StorageState) (m : Mem) (d : SensorData)
    (st1 : StorageState) (m1 : Mem) (h : saveData st m d = (.ok, st1, m1)) :
    st.isInitialized = true ∧
    (d.toCSV.length : Int) ≤ (st.recordSize - 2) % (2 ^ 32) ∧
    calculateAddress st st.currentIndex + st.recordSize ≤ st.eepromLen ∧
    st1 = savePostState st ∧ m1 = savePostMem st m d := by
  rcases saveData_branches st m d with ⟨-, hb⟩ | ⟨-, -, hb⟩ | ⟨-, -, -, hb⟩ |
    ⟨h1, h2, h3, hb⟩ <;> rw [hb] at h
  · exact absurd (congrArg Prod.fst h) (by simp)
  · exact absurd (congrArg Prod.fst h) (by simp)
  · exact absurd (congrArg Prod.fst h) (by simp)
  · have hst := congrArg (fun p => p.2.1) h
    have hm := congrArg (fun p => p.2.2) h
    simp only at hst hm
    exact ⟨h1, h2, h3, hst.symm, hm.symm⟩

/-- States of the store reachable from a cleared store (the in-object state
that initialize leaves behind on first use) by saveData and clearStorage
steps, with arbitrary memories and records at each step. -/
inductive Reach : StorageState → Prop
  | start (maxR recS eLen : Int) (wc : Nat) :
      Reach { maxRecords := maxR, recordSize := recS, currentIndex := 0, recordCount := 0,
              isInitialized := true, writeCounter := wc, eepromLen := eLen }
  | save (st : StorageState) (m : Mem) (d : SensorData) (h : Reach st) :
      Reach (saveData st m d).2.1
  | clear (st : StorageState) (m : Mem) (h : Reach st) :
      Reach (clearStorage st m).1

theorem reach_invariant (st : StorageState) (h : Reach st) :
    0 < st.maxRecords →
      0 ≤ st.currentIndex ∧ st.currentIndex < st.maxRecords ∧ 0 ≤ st.recordCount ∧
        st.recordCount ≤ st.maxRecords ∧
        (st.recordCount < st.maxRecords → st.currentIndex = st.recordCount) := by
  induction h with
  | start maxR recS eLen wc =>
      intro hmax
      exact ⟨le_rfl, hmax, le_rfl, le_of_lt hmax, fun _ => rfl⟩
  | save st m d hr ih =>
      intro hmax
      have hfields := saveData_fields st m d
      have hmax' : 0 < st.maxRecords := by rw [← hfields.1]; exact hmax
      obtain ⟨hi0, hi1, hc0, hc1, hic⟩ := ih hmax'
      rcases saveData_idx_cnt st m d with ⟨he1, he2⟩ | ⟨he1, he2⟩
      · rw [he1, he2, hfields.1]
        exact ⟨hi0, hi1, hc0, hc1, hic⟩
      · rw [he1, he2, hfields.1]
        have hmod0 : 0 ≤ (st.currentIndex + 1) % st.maxRecords :=
          Int.emod_nonneg _ (by omega)
        have hmod1 : (st.currentIndex + 1) % st.maxRecords < st.maxRecords :=
          Int.emod_lt_of_pos _ hmax'
        by_cases hlt : st.recordCount < st.maxRecords
        · rw [if_pos hlt]
          refine ⟨hmod0, hmod1, by omega, by omega, ?_⟩
          intro hlt2
          have hidx : st.currentIndex = st.recordCount := hic hlt
          rw [hidx]
          exact Int.emod_eq_of_lt (by omega) (by omega)
        · rw [if_neg hlt]
          exact ⟨hmod0, hmod1, hc0, hc1, by omega⟩
  | clear st m hr ih =>
      intro hmax
      rw [clearStorage_state] at hmax ⊢
      exact ⟨le_rfl, hmax, le_rfl, le_of_lt hmax, fun _ => rfl⟩

/-- C5: with an initialized store and a sane slot size, saveData rejects —
returning the RecordTooLarge error path and leaving both the object state
and the medium untouched — every record whose encoded CSV length exceeds
recordSize - 2, the slot capacity minus the reserved 2-byte length
header. A record whose encoding has length recordSize - 1 exceeds that
bound, so it is rejected. -/
theorem C5_oversized_record_rejected (st : StorageState) (m : Mem) (d : SensorData)
    (hinit : st.isInitialized = true) (hrs : 2 ≤ st.recordSize)
    (hrs2 : st.recordSize ≤ 2 ^ 31)
    (hlen : st.recordSize - 2 < (d.toCSV.length : Int)) :
    saveData st m d = (.tooLarge, st, m) := by
  have hmod : (st.recordSize - 2) % (2 ^ 32) = st.recordSize - 2 :=
    Int.emod_eq_of_lt (by omega) (by omega)
  rcases saveData_branches st m d with ⟨hb, -⟩ | ⟨-, -, h⟩ | ⟨-, hb, -, -⟩ | ⟨-, hb, -, -⟩
  · rw [hinit] at hb; cases hb
  · exact h
  · omega
  · omega

/-- C7 (amended): with an initialized store, retrieveData reports
IndexOutOfRange exactly for the indices at or beyond recordCount. The
guard does not reject negative indices: for those the function goes on to
read the medium below the record region (see the counterexample). -/
theorem C7_range_guard_iff (st : StorageState) (m : Mem) (d : SensorData) (i : Int)
    (hinit : st.isInitialized = true) :
    retrieveData st m d i = .indexOutOfRange ↔ st.recordCount ≤ i := by
  rw [retrieveData]
  by_cases hge : st.recordCount ≤ i
  · simp [hinit, hge]
  · have hlt : ¬ i ≥ st.recordCount := hge
    simp only [hinit, Bool.true_eq_false, if_false, if_neg hlt]
    have hne : ∀ (res : Option SensorData) (c : Prop) (inst : Decidable c),
        (if c then RetrieveResult.invalidLength
         else match res with
              | some d2 => RetrieveResult.ok d2
              | none => RetrieveResult.decodeFailed) ≠ RetrieveResult.indexOutOfRange := by
      intro res c inst
      split_ifs
      · simp
      · cases res <;> simp
    simp only [iff_false_intro hge, iff_false]
    exact hne _ _ _

/-- C9: every save from a reachable state of a positive-capacity store
leaves recordCount at most maxRecords, and once recordCount has reached
maxRecords a further save keeps it exactly there (saturation). -/
theorem C9_capacity_invariant (st : StorageState) (m : Mem) (d : SensorData)
    (h : Reach st) (hmax : 0 < st.maxRecords) :
    (saveData st m d).2.1.recordCount ≤ st.maxRecords ∧
    (st.recordCount = st.maxRecords → (saveData st m d).2.1.recordCount = st.maxRecords) := by
  have hfields := saveData_fields st m d
  have hpost := reach_invariant _ (Reach.save st m d h)
    (by rw [hfields.1]; exact hmax)
  refine ⟨?_, ?_⟩
  · have := hpost.2.2.2.1
    rw [hfields.1] at this
    exact this
  · intro hsat
    rcases saveData_idx_cnt st m d with ⟨-, he2⟩ | ⟨-, he2⟩
    · rw [he2, hsat]
    · rw [he2, if_neg (by omega)]
      exact hsat

/-- C8: a successful saveData leaves the header bytes untouched and writes
only the addressed slot, except when the commit condition holds — the
incremented static write counter reached 10, or the advanced cursor
wrapped to 0 — in which case the ten header bytes are also rewritten with
the updated cursor and count, and still nothing outside slot and header
changes. -/
theorem C8_header_commit_policy (st : StorageState) (m : Mem) (d : SensorData)
    (st1 : StorageState) (m1 : Mem)
    (hrs : 2 ≤ st.recordSize) (hrs2 : st.recordSize ≤ 2 ^ 31)
    (hidx : 0 ≤ st.currentIndex)
    (hsave : saveData st m d = (.ok, st1, m1)) :
    (¬ commitsHeader st →
      st1.writeCounter = (st.writeCounter + 1) % 256 ∧
      (∀ a : Int, 0 ≤ a → a < 10 → m1 a = m a) ∧
      (∀ a : Int, (a < calculateAddress st st.currentIndex ∨
        calculateAddress st st.currentIndex + st.recordSize ≤ a) → m1 a = m a)) ∧
    (commitsHeader st →
      st1.writeCounter = 0 ∧
      (∀ a : Int, (a < calculateAddress st st.currentIndex ∨
          calculateAddress st st.currentIndex + st.recordSize ≤ a) →
        (a < 0 ∨ 10 ≤ a) → m1 a = m a) ∧
      (∀ i : Nat, i < 10 →
        readB m1 (i : Int) =
          (headerBytes st1.currentIndex.toNat st1.recordCount.toNat).getD i 0 % 256)) := by
  obtain ⟨hinit, hlen, haddr, hst1, hm1⟩ := saveData_ok_spec st m d st1 m1 hsave
  have hlen2 : (d.toCSV.length : Int) ≤ st.recordSize - 2 := by omega
  have haddr10 : (10 : Int) ≤ calculateAddress st st.currentIndex := by
    rw [calculateAddress, RECORD_START]
    nlinarith
  constructor
  · intro hnc
    refine ⟨?_, ?_, ?_⟩
    · rw [hst1]; simp [savePostState, if_neg hnc]
    · intro a ha0 ha10
      rw [hm1]
      simp only [savePostMem]
      rw [if_neg hnc]
      exact writeRecordSlot_outside m _ d.toCSV st.recordSize hlen2 a (Or.inl (by omega))
    · intro a ha
      rw [hm1]
      simp only [savePostMem]
      rw [if_neg hnc]
      exact writeRecordSlot_outside m _ d.toCSV st.recordSize hlen2 a ha
  · intro hc
    refine ⟨?_, ?_, ?_⟩
    · rw [hst1]; simp [savePostState, if_pos hc]
    · intro a ha hh
      rw [hm1]
      simp only [savePostMem]
      rw [if_pos hc, writeHeader, writeHeaderMem_outside _ _ _ a hh]
      exact writeRecordSlot_outside m _ d.toCSV st.recordSize hlen2 a ha
    · intro i hi
      rw [hm1, hst1]
      simp only [savePostMem]
      rw [if_pos hc, writeHeader]
      exact writeHeaderMem_readB _ _ _ i hi

theorem xor_left_cancel (a x y : Nat) (h : a ^^^ x = a ^^^ y) : x = y := by
  have h2 := congrArg (fun z => a ^^^ z) h
  simpa [← Nat.xor_assoc, Nat.xor_self, Nat.zero_xor] using h2

theorem xor_right_cancel (x y b : Nat) (h : x ^^^ b = y ^^^ b) : x = y := by
  have h2 := congrArg (fun z => z ^^^ b) h
  simpa [Nat.xor_assoc, Nat.xor_self, Nat.xor_zero] using h2

theorem xor_lt_256 (a b : Nat) (ha : a < 256) (hb : b < 256) : a ^^^ b < 256 :=
  Nat.xor_lt_two_pow (n := 8) ha hb

theorem headerChecksum_lt (idx cnt : Nat) (hidx : idx < 65536) (hcnt : cnt < 65536) :
    headerChecksum idx cnt < 256 := by
  rw [headerChecksum, STORAGE_VERSION]
  refine xor_lt_256 _ _ (xor_lt_256 _ _ (xor_lt_256 _ _ (xor_lt_256 _ _
    (xor_lt_256 _ _ (by decide) (by omega)) (by omega)) (by omega)) (by omega)) (by omega)

theorem headerBytes_lt (idx cnt : Nat) (hidx : idx < 65536) (hcnt : cnt < 65536)
    (a : Nat) : (headerBytes idx cnt).getD a 0 < 256 := by
  have hchk := headerChecksum_lt idx cnt hidx hcnt
  by_cases ha : a < 10
  · interval_cases a <;> simp [headerBytes, STORAGE_VERSION] <;> omega
  · rw [List.getD_eq_default]
    · omega
    · simp only [headerBytes, List.length_cons, List.length_nil]; omega

theorem corrupt_readB (idx cnt j v : Nat) (m : Mem)
    (hidx : idx < 65536) (hcnt : cnt < 65536) (hv : v < 256) (a : Nat) (ha : a < 10) :
    readB (writeB (writeHeaderMem idx cnt m) (j : Int) v) (a : Int) =
      if a = j then v else (headerBytes idx cnt).getD a 0 := by
  by_cases haj : a = j
  · subst haj
    rw [if_pos rfl, readB, writeB_eq]
    omega
  · rw [if_neg haj, readB, writeB_ne _ _ _ _ (by exact_mod_cast haj)]
    have h2 := writeHeaderMem_readB idx cnt m a ha
    rw [readB] at h2
    rw [h2]
    have := headerBytes_lt idx cnt hidx hcnt a
    omega

theorem readHeader_false_of_magic0 (stq : StorageState) (M : Mem)
    (h : readB M 0 ≠ 0xAB) : (readHeader stq M).1 = false := by
  rw [readHeader, if_pos (Or.inl h)]

theorem readHeader_false_of_magic1 (stq : StorageState) (M : Mem)
    (h : readB M 1 ≠ 0xCD) : (readHeader stq M).1 = false := by
  rw [readHeader, if_pos (Or.inr h)]

theorem readHeader_false_of_version (stq : StorageState) (M : Mem)
    (h0 : readB M 0 = 0xAB) (h1 : readB M 1 = 0xCD)
    (h2 : readB M 2 ≠ STORAGE_VERSION) : (readHeader stq M).1 = false := by
  rw [readHeader, if_neg (by push_neg; exact ⟨h0, h1⟩), if_pos h2]

theorem readHeader_false_of_checksum (stq : StorageState) (M : Mem)
    (h0 : readB M 0 = 0xAB) (h1 : readB M 1 = 0xCD)
    (h2 : readB M 2 = STORAGE_VERSION)
    (h7 : readB M 7 ≠
      headerChecksum (readB M 3 * 256 + readB M 4) (readB M 5 * 256 + readB M 6)) :
    (readHeader stq M).1 = false := by
  rw [readHeader, if_neg (by push_neg; exact ⟨h0, h1⟩), if_neg (by simp [h2]),
    if_pos h7]

/-- Corrupting any one of the eight checked header bytes (magic, version,
cursor, count, checksum — bytes 0 through 7) makes readHeader report an
invalid header. The two reserved bytes 8 and 9 are not covered: they are
not checked (see the C3 counterexample). -/
theorem readHeader_corrupt (stq : StorageState) (m : Mem) (idx cnt j v : Nat)
    (hidx : idx < 65536) (hcnt : cnt < 65536) (hj : j < 8) (hv : v < 256)
    (hne : v ≠ (headerBytes idx cnt).getD j 0) :
    (readHeader stq (writeB (writeHeaderMem idx cnt m) (j : Int) v)).1 = false := by
  have hR : ∀ a : Nat, a < 10 →
      readB (writeB (writeHeaderMem idx cnt m) (j : Int) v) (a : Int) =
        if a = j then v else (headerBytes idx cnt).getD a 0 :=
    fun a ha => corrupt_readB idx cnt j v m hidx hcnt hv a ha
  have h0 : readB (writeB (writeHeaderMem idx cnt m) (j : Int) v) 0 =
      if 0 = j then v else (headerBytes idx cnt).getD 0 0 := by
    have := hR 0 (by omega); rwa [show (((0 : Nat)) : Int) = (0 : Int) from rfl] at this
  have h1 : readB (writeB (writeHeaderMem idx cnt m) (j : Int) v) 1 =
      if 1 = j then v else (headerBytes idx cnt).getD 1 0 := by
    have := hR 1 (by omega); rwa [show (((1 : Nat)) : Int) = (1 : Int) from rfl] at this
  have h2 : readB (writeB (writeHeaderMem idx cnt m) (j : Int) v) 2 =
      if 2 = j then v else (headerBytes idx cnt).getD 2 0 := by
    have := hR 2 (by omega); rwa [show (((2 : Nat)) : Int) = (2 : Int) from rfl] at this
  have h3 : readB (writeB (writeHeaderMem idx cnt m) (j : Int) v) 3 =
      if 3 = j then v else (headerBytes idx cnt).getD 3 0 := by
    have := hR 3 (by omega); rwa [show (((3 : Nat)) : Int) = (3 : Int) from rfl] at this
  have h4 : readB (writeB (writeHeaderMem idx cnt m) (j : Int) v) 4 =
      if 4 = j then v else (headerBytes idx cnt).getD 4 0 := by
    have := hR 4 (by omega); rwa [show (((4 : Nat)) : Int) = (4 : Int) from rfl] at this
  have h5 : readB (writeB (writeHeaderMem idx cnt m) (j : Int) v) 5 =
      if 5 = j then v else (headerBytes idx cnt).getD 5 0 := by
    have := hR 5 (by omega); rwa [show (((5 : Nat)) : Int) = (5 : Int) from rfl] at this
  have h6 : readB (writeB (writeHeaderMem idx cnt m) (j : Int) v) 6 =
      if 6 = j then v else (headerBytes idx cnt).getD 6 0 := by
    have := hR 6 (by omega); rwa [show (((6 : Nat)) : Int) = (6 : Int) from rfl] at this
  have h7 : readB (writeB (writeHeaderMem idx cnt m) (j : Int) v) 7 =
      if 7 = j then v else (headerBytes idx cnt).getD 7 0 := by
    have := hR 7 (by omega); rwa [show (((7 : Nat)) : Int) = (7 : Int) from rfl] at this
  have hB0 : (headerBytes idx cnt).getD 0 0 = 0xAB := by simp [headerBytes]
  have hB1 : (headerBytes idx cnt).getD 1 0 = 0xCD := by simp [headerBytes]
  have hB2 : (headerBytes idx cnt).getD 2 0 = STORAGE_VERSION := by simp [headerBytes]
  have hB3 : (headerBytes idx cnt).getD 3 0 = idx / 256 := by
    simp [headerBytes]; omega
  have hB4 : (headerBytes idx cnt).getD 4 0 = idx % 256 := by simp [headerBytes]
  have hB5 : (headerBytes idx cnt).getD 5 0 = cnt / 256 := by
    simp [headerBytes]; omega
  have hB6 : (headerBytes idx cnt).getD 6 0 = cnt % 256 := by simp [headerBytes]
  have hB7 : (headerBytes idx cnt).getD 7 0 = headerChecksum idx cnt := by
    simp [headerBytes]
  interval_cases j
  · apply readHeader_false_of_magic0 stq
    rw [if_pos rfl] at h0
    rw [hB0] at hne
    rw [h0]
    exact hne
  · apply readHeader_false_of_magic1 stq
    rw [if_pos rfl] at h1
    rw [hB1] at hne
    rw [h1]
    exact hne
  · refine readHeader_false_of_version stq _ ?_ ?_ ?_
    · rw [if_neg (by omega)] at h0; rw [h0, hB0]
    · rw [if_neg (by omega)] at h1; rw [h1, hB1]
    · rw [if_pos rfl] at h2
      rw [hB2] at hne
      rw [h2]
      exact hne
  · refine readHeader_false_of_checksum stq _ ?_ ?_ ?_ ?_
    · rw [if_neg (by omega)] at h0; rw [h0, hB0]
    · rw [if_neg (by omega)] at h1; rw [h1, hB1]
    · rw [if_neg (by omega)] at h2; rw [h2, hB2]
    · rw [if_pos rfl] at h3
      rw [if_neg (by omega)] at h4 h5 h6 h7
      rw [h3, h4, h5, h6, h7, hB4, hB5, hB6, hB7]
      rw [hB3] at hne
      intro hcontra
      have hrec : cnt / 256 * 256 + cnt % 256 = cnt := by omega
      rw [hrec] at hcontra
      rw [headerChecksum, headerChecksum] at hcontra
      have e1 : (v * 256 + idx % 256) / 256 = v := by omega
      have e2 : (v * 256 + idx % 256) % 256 = idx % 256 := by omega
      rw [e1, e2] at hcontra
      have c1 := xor_right_cancel _ _ _ hcontra.symm
      have c2 := xor_right_cancel _ _ _ c1
      have c3 := xor_right_cancel _ _ _ c2
      exact hne (xor_left_cancel _ _ _ c3)
  · refine readHeader_false_of_checksum stq _ ?_ ?_ ?_ ?_
    · rw [if_neg (by omega)] at h0; rw [h0, hB0]
    · rw [if_neg (by omega)] at h1; rw [h1, hB1]
    · rw [if_neg (by omega)] at h2; rw [h2, hB2]
    · rw [if_pos rfl] at h4
      rw [if_neg (by omega)] at h3 h5 h6 h7
      rw [h3, h4, h5, h6, h7, hB3, hB5, hB6, hB7]
      rw [hB4] at hne
      intro hcontra
      have hrec : cnt / 256 * 256 + cnt % 256 = cnt := by omega
      rw [hrec] at hcontra
      rw [headerChecksum, headerChecksum] at hcontra
      have e1 : (idx / 256 * 256 + v) / 256 = idx / 256 := by omega
      have e2 : (idx / 256 * 256 + v) % 256 = v := by omega
      rw [e1, e2] at hcontra
      have c1 := xor_right_cancel _ _ _ hcontra.symm
      have c2 := xor_right_cancel _ _ _ c1
      exact hne (xor_left_cancel _ _ _ c2)
  · refine readHeader_false_of_checksum stq _ ?_ ?_ ?_ ?_
    · rw [if_neg (by omega)] at h0; rw [h0, hB0]
    · rw [if_neg (by omega)] at h1; rw [h1, hB1]
    · rw [if_neg (by omega)] at h2; rw [h2, hB2]
    · rw [if_pos rfl] at h5
      rw [if_neg (by omega)] at h3 h4 h6 h7
      rw [h3, h4, h5, h6, h7, hB3, hB4, hB6, hB7]
      rw [hB5] at hne
      intro hcontra
      have hfull : idx / 256 * 256 + idx % 256 = idx := by omega
      rw [hfull] at hcontra
      rw [headerChecksum, headerChecksum] at hcontra
      have e1 : (v * 256 + cnt % 256) / 256 = v := by omega
      have e2 : (v * 256 + cnt % 256) % 256 = cnt % 256 := by omega
      rw [e1, e2] at hcontra
      have c1 := xor_right_cancel _ _ _ hcontra.symm
      exact hne (xor_left_cancel _ _ _ c1)
  · refine readHeader_false_of_checksum stq _ ?_ ?_ ?_ ?_
    · rw [if_neg (by omega)] at h0; rw [h0, hB0]
    · rw [if_neg (by omega)] at h1; rw [h1, hB1]
    · rw [if_neg (by omega)] at h2; rw [h2, hB2]
    · rw [if_pos rfl] at h6
      rw [if_neg (by omega)] at h3 h4 h5 h7
      rw [h3, h4, h5, h6, h7, hB3, hB4, hB5, hB7]
      rw [hB6] at hne
      intro hcontra
      have hfull : idx / 256 * 256 + idx % 256 = idx := by omega
      rw [hfull] at hcontra
      rw [headerChecksum, headerChecksum] at hcontra
      have e1 : (cnt / 256 * 256 + v) / 256 = cnt / 256 := by omega
      have e2 : (cnt / 256 * 256 + v) % 256 = v := by omega
      rw [e1, e2] at hcontra
      exact hne (xor_left_cancel _ _ _ hcontra.symm)
  · refine readHeader_false_of_checksum stq _ ?_ ?_ ?_ ?_
    · rw [if_neg (by omega)] at h0; rw [h0, hB0]
    · rw [if_neg (by omega)] at h1; rw [h1, hB1]
    · rw [if_neg (by omega)] at h2; rw [h2, hB2]
    · rw [if_pos rfl] at h7
      rw [if_neg (by omega)] at h3 h4 h5 h6
      rw [h3, h4, h5, h6, h7, hB3, hB4, hB5, hB6]
      rw [hB7] at hne
      have hfull : idx / 256 * 256 + idx % 256 = idx := by omega
      have hfull2 : cnt / 256 * 256 + cnt % 256 = cnt := by omega
      rw [hfull, hfull2]
      exact hne

/-- The all-zero memory image. -/
def memZero : Mem := fun _ => 0

/-- A scratch record like the stack-allocated SensorData the callers pass
to retrieveData and fromCSV to be filled in. -/
def recNull : SensorData := { values := [0, 0, 0, 0, 0, 0], timestamp := 0, status := 0 }

/-- Concrete sample records for the scenario runs. -/
def sampleRec (ts : Nat) (a b : Rat) : SensorData :=
  { values := [a, b, 0, 0, 0, 0], timestamp := ts, status := 1 }

/-- C3 (amended): with a persisted header written by writeHeader for cursor
`idx` and count `cnt`, corrupting any single byte among the eight checked
ones (offsets 0–7: magic, version, cursor, count, checksum) makes
initialize treat the store as uninitialized: the header probe fails, a
first-time clearStorage runs, and both the cursor and the count come out
zero. The claim's "any single header byte" is amended to these eight: the
two reserved bytes (offsets 8–9) are not validated, and corrupting them is
not detected (see the counterexample). -/
theorem C3_checked_byte_corruption_resets (st : StorageState) (m : Mem)
    (idx cnt j v : Nat)
    (hidx : idx < 65536) (hcnt : cnt < 65536) (hj : j < 8) (hv : v < 256)
    (hne : v ≠ (headerBytes idx cnt).getD j 0)
    (hsz : HEADER_SIZE + st.maxRecords * st.recordSize ≤ 4096) :
    (initializeStorage st (writeB (writeHeaderMem idx cnt m) (j : Int) v)).1 = true ∧
    (initializeStorage st
      (writeB (writeHeaderMem idx cnt m) (j : Int) v)).2.1.currentIndex = 0 ∧
    (initializeStorage st
      (writeB (writeHeaderMem idx cnt m) (j : Int) v)).2.1.recordCount = 0 := by
  have hfalse := readHeader_corrupt
    { st with eepromLen := HEADER_SIZE + st.maxRecords * st.recordSize }
    m idx cnt j v hidx hcnt hj hv hne
  rcases hrh : readHeader
      { st with eepromLen := HEADER_SIZE + st.maxRecords * st.recordSize }
      (writeB (writeHeaderMem idx cnt m) (j : Int) v) with ⟨b, st1⟩
  have hb : b = false := by rw [hrh] at hfalse; exact hfalse
  subst hb
  rw [initializeStorage, if_neg (by omega)]
  simp [hrh, clearStorage, writeHeader]

/-- C3 witness: a concrete corrupted checked byte. Store with capacity 3
and 32-byte slots; header written for cursor 1, count 2; byte 3 (cursor
high byte, value 0) overwritten with 7. Initialize reports first-time
setup and resets both counters. -/
theorem C3_checked_byte_corruption_resets_witness :
    (initializeStorage
      { maxRecords := 3, recordSize := 32, currentIndex := 0, recordCount := 0,
        isInitialized := false, writeCounter := 0, eepromLen := 0 }
      (writeB (writeHeaderMem 1 2 memZero) ((3 : Nat) : Int) 7)).1 = true ∧
    (initializeStorage
      { maxRecords := 3, recordSize := 32, currentIndex := 0, recordCount := 0,
        isInitialized := false, writeCounter := 0, eepromLen := 0 }
      (writeB (writeHeaderMem 1 2 memZero) ((3 : Nat) : Int) 7)).2.1.currentIndex = 0 ∧
    (initializeStorage
      { maxRecords := 3, recordSize := 32, currentIndex := 0, recordCount := 0,
        isInitialized := false, writeCounter := 0, eepromLen := 0 }
      (writeB (writeHeaderMem 1 2 memZero) ((3 : Nat) : Int) 7)).2.1.recordCount = 0 :=
  C3_checked_byte_corruption_resets _ memZero 1 2 3 7 (by decide) (by decide)
    (by decide) (by decide) (by decide) (by decide)

/-- C3 counterexample: the reserved header byte at offset 8 is not checked.
With a valid header for cursor 1 and count 2, overwriting byte 8 (stored
as 0) with 1 leaves the header accepted: initialize keeps cursor 1 and
count 2 instead of treating the store as uninitialized and resetting them
to zero, so corrupting "any single header byte" is not always detected. -/
theorem C3_counterexample_reserved_byte :
    readB (writeHeaderMem 1 2 memZero) 8 = 0 ∧
    readB (writeB (writeHeaderMem 1 2 memZero) 8 1) 8 = 1 ∧
    (initializeStorage
      { maxRecords := 3, recordSize := 32, currentIndex := 0, recordCount := 0,
        isInitialized := false, writeCounter := 0, eepromLen := 0 }
      (writeB (writeHeaderMem 1 2 memZero) 8 1)).1 = true ∧
    (initializeStorage
      { maxRecords := 3, recordSize := 32, currentIndex := 0, recordCount := 0,
        isInitialized := false, writeCounter := 0, eepromLen := 0 }
      (writeB (writeHeaderMem 1 2 memZero) 8 1)).2.1.currentIndex = 1 ∧
    (initializeStorage
      { maxRecords := 3, recordSize := 32, currentIndex := 0, recordCount := 0,
        isInitialized := false, writeCounter := 0, eepromLen := 0 }
      (writeB (writeHeaderMem 1 2 memZero) 8 1)).2.1.recordCount = 2 := by
  decide

/-- C5 witness: slot size 16; the record (timestamp 12, values 5 and
10.25, status 1) encodes as "12,5.00,10.25,1", 15 = recordSize - 1
characters, and saveData rejects it leaving state and memory unchanged. -/
theorem C5_oversized_record_rejected_witness :
    ((sampleRec 12 5 (mkRat 41 4)).toCSV.length = 15) ∧
    saveData
      { maxRecords := 3, recordSize := 16, currentIndex := 0, recordCount := 0,
        isInitialized := true, writeCounter := 0, eepromLen := 58 }
      memZero (sampleRec 12 5 (mkRat 41 4)) =
      (.tooLarge,
       { maxRecords := 3, recordSize := 16, currentIndex := 0, recordCount := 0,
         isInitialized := true, writeCounter := 0, eepromLen := 58 },
       memZero) :=
  ⟨by decide,
   C5_oversized_record_rejected _ memZero _ rfl (by decide) (by decide) (by decide)⟩

/-- C7 witness: an initialized store holding 2 records rejects index 5 with
IndexOutOfRange, by the amended characterization. -/
theorem C7_range_guard_iff_witness :
    retrieveData
      { maxRecords := 3, recordSize := 16, currentIndex := 2, recordCount := 2,
        isInitialized := true, writeCounter := 0, eepromLen := 58 }
      memZero recNull 5 = .indexOutOfRange ↔
      ({ maxRecords := 3, recordSize := 16, currentIndex := 2, recordCount := 2,
         isInitialized := true, writeCounter := 0,
         eepromLen := 58 } : StorageState).recordCount ≤ 5 :=
  C7_range_guard_iff _ memZero recNull 5 rfl

/-- C7 counterexample: the guard does not reject negative indices. With one
valid record stored and bytes planted at the addresses the negative index
maps to (`RECORD_START - recordSize = -6` for slot size 16), retrieveData
at index -1 — outside the valid range [0, count) — succeeds with a decoded
record instead of failing with IndexOutOfRange. -/
theorem C7_counterexample_negative_index :
    retrieveData
      { maxRecords := 3, recordSize := 16, currentIndex := 1, recordCount := 1,
        isInitialized := true, writeCounter := 0, eepromLen := 58 }
      (writeBytes memZero (-6) ([0, 13] ++ (sampleRec 1 0 0).toCSV.map Char.toNat))
      recNull (-1) =
      .ok { values := [0, 0, 0, 0, 0, 0], timestamp := 1, status := 1 } := by
  decide

/-- A freshly cleared store with capacity 3 and 32-byte slots, as
initialize leaves it on an empty 106-byte medium. -/
def stStart : StorageState :=
  { maxRecords := 3, recordSize := 32, currentIndex := 0, recordCount := 0,
    isInitialized := true, writeCounter := 0, eepromLen := 106 }

/-- C8 witness: one save of a small record into the cleared store, with
the commit condition evaluated on both sides of the policy. -/
theorem C8_header_commit_policy_witness :
    (¬ commitsHeader stStart →
      (savePostState stStart).writeCounter = (stStart.writeCounter + 1) % 256 ∧
      (∀ a : Int, 0 ≤ a → a < 10 →
        savePostMem stStart memZero (sampleRec 1 1 2) a = memZero a) ∧
      (∀ a : Int, (a < calculateAddress stStart stStart.currentIndex ∨
          calculateAddress stStart stStart.currentIndex + stStart.recordSize ≤ a) →
        savePostMem stStart memZero (sampleRec 1 1 2) a = memZero a)) ∧
    (commitsHeader stStart →
      (savePostState stStart).writeCounter = 0 ∧
      (∀ a : Int, (a < calculateAddress stStart stStart.currentIndex ∨
          calculateAddress stStart stStart.currentIndex + stStart.recordSize ≤ a) →
        (a < 0 ∨ 10 ≤ a) →
        savePostMem stStart memZero (sampleRec 1 1 2) a = memZero a) ∧
      (∀ i : Nat, i < 10 →
        readB (savePostMem stStart memZero (sampleRec 1 1 2)) (i : Int) =
          (headerBytes (savePostState stStart).currentIndex.toNat
            (savePostState stStart).recordCount.toNat).getD i 0 % 256)) :=
  C8_header_commit_policy stStart memZero (sampleRec 1 1 2) _ _
    (by decide) (by decide) (by decide) rfl

/-- C9 witness: a save into the freshly cleared capacity-3 store. -/
theorem C9_capacity_invariant_witness :
    (saveData stStart memZero (sampleRec 1 1 2)).2.1.recordCount ≤ stStart.maxRecords ∧
    (stStart.recordCount = stStart.maxRecords →
      (saveData stStart memZero (sampleRec 1 1 2)).2.1.recordCount = stStart.maxRecords) :=
  C9_capacity_invariant stStart memZero (sampleRec 1 1 2) (Reach.start 3 32 106 0)
    (by decide)

theorem toCSV_length_pos (r : SensorData) : 1 ≤ r.toCSV.length := by
  rw [toCSV_shape]
  simp only [List.length_append, List.length_cons]
  omega

theorem toCSV_toNat_lt (r : SensorData) : ∀ c ∈ r.toCSV, c.toNat < 256 := by
  rw [toCSV_shape]
  intro c hc
  simp only [List.mem_append, List.mem_cons] at hc
  have hcomma : (',' : Char).toNat < 256 := by decide
  rcases hc with h | h | h | h | h | h | h
  · exact isDigit_toNat_lt c (natChars_digits _ c h)
  · subst h; exact hcomma
  · rcases ratFormat2_mem _ c h with hd | hd | hd
    · exact isDigit_toNat_lt c hd
    · subst hd; decide
    · subst hd; decide
  · subst h; exact hcomma
  · rcases ratFormat2_mem _ c h with hd | hd | hd
    · exact isDigit_toNat_lt c hd
    · subst hd; decide
    · subst hd; decide
  · subst h; exact hcomma
  · exact isDigit_toNat_lt c (natChars_digits _ c h)

/-- Slot `j` of the record region holds the encoding of record `r`: the
2-byte big-endian length prefix followed by the CSV bytes. -/
def SlotHolds (m : Mem) (recS j : Int) (r : SensorData) : Prop :=
  readB m (RECORD_START + j * recS) = r.toCSV.length / 256 ∧
  readB m (RECORD_START + j * recS + 1) = r.toCSV.length % 256 ∧
  ∀ k : Nat, k < r.toCSV.length →
    readB m (RECORD_START + j * recS + 2 + (k : Int)) = (r.toCSV.getD k '0').toNat

theorem SlotHolds_frame (m m2 : Mem) (recS j : Int) (r : SensorData)
    (hr : (r.toCSV.length : Int) ≤ recS - 2)
    (h : ∀ a : Int, RECORD_START + j * recS ≤ a →
      a < RECORD_START + j * recS + recS → m2 a = m a)
    (hs : SlotHolds m recS j r) : SlotHolds m2 recS j r := by
  obtain ⟨h1, h2, h3⟩ := hs
  refine ⟨?_, ?_, ?_⟩
  · rw [readB, h _ (by omega) (by omega)]; exact h1
  · rw [readB, h _ (by omega) (by omega)]; exact h2
  · intro k hk
    have hk2 : ((k : Nat) : Int) < (r.toCSV.length : Int) := by exact_mod_cast hk
    rw [readB, h _ (by omega) (by omega)]
    exact h3 k hk

theorem slot_region_disjoint (recS : Int) (hr : 0 < recS) (j1 j2 a : Int)
    (h1 : RECORD_START + j1 * recS ≤ a) (h1b : a < RECORD_START + j1 * recS + recS)
    (h2 : RECORD_START + j2 * recS ≤ a) (h2b : a < RECORD_START + j2 * recS + recS) :
    j1 = j2 := by
  have e1 : j1 * recS < (j2 + 1) * recS := by nlinarith
  have e2 : j2 * recS < (j1 + 1) * recS := by nlinarith
  have f1 : j1 < j2 + 1 := lt_of_mul_lt_mul_right e1 (le_of_lt hr)
  have f2 : j2 < j1 + 1 := lt_of_mul_lt_mul_right e2 (le_of_lt hr)
  omega

theorem savePostMem_slot (st : StorageState) (m : Mem) (d : SensorData)
    (hrs : 2 ≤ st.recordSize)
    (hlen : (d.toCSV.length : Int) ≤ st.recordSize - 2)
    (hlen2 : d.toCSV.length < 65536) (hidx : 0 ≤ st.currentIndex) :
    SlotHolds (savePostMem st m d) st.recordSize st.currentIndex d ∧
    (∀ a : Int, 10 ≤ a →
      (a < RECORD_START + st.currentIndex * st.recordSize ∨
       RECORD_START + st.currentIndex * st.recordSize + st.recordSize ≤ a) →
      savePostMem st m d a = m a) := by
  have haddr : calculateAddress st st.currentIndex =
      RECORD_START + st.currentIndex * st.recordSize := rfl
  have haddr10 : (10 : Int) ≤ RECORD_START + st.currentIndex * st.recordSize := by
    rw [RECORD_START]; nlinarith
  have hheader : ∀ x : Int, RECORD_START + st.currentIndex * st.recordSize ≤ x →
      savePostMem st m d x =
        writeRecordSlot m (calculateAddress st st.currentIndex) d.toCSV st.recordSize x := by
    intro x hx
    rw [savePostMem]
    by_cases hcm : commitsHeader st
    · rw [if_pos hcm, writeHeader, writeHeaderMem_outside]
      right
      omega
    · rw [if_neg hcm]
  have hslotwrites : ∀ k : Nat, (k : Int) < st.recordSize →
      writeRecordSlot m (calculateAddress st st.currentIndex) d.toCSV st.recordSize
        (RECORD_START + st.currentIndex * st.recordSize + (k : Int)) =
      (if k = 0 then d.toCSV.length % 2 ^ 16 / 256 % 256 % 256
       else if k = 1 then d.toCSV.length % 2 ^ 16 % 256 % 256
       else if k < d.toCSV.length + 2 then
         ((d.toCSV.map Char.toNat).getD (k - 2) 0) % 256
       else 0 % 256) := by
    intro k hkr
    rw [writeRecordSlot, haddr]
    by_cases hk0 : k = 0
    · subst hk0
      rw [if_pos rfl]
      rw [writeBytes_outside _ _ _ _ (Or.inl (by push_cast; omega)),
        writeBytes_outside _ _ _ _ (Or.inl (by push_cast; omega)),
        writeB_ne _ _ _ _ (by push_cast; omega)]
      simp only [Int.add_zero, Nat.cast_zero]
      exact writeB_eq _ _ _
    · by_cases hk1 : k = 1
      · subst hk1
        rw [if_neg (by omega), if_pos rfl]
        rw [writeBytes_outside _ _ _ _ (Or.inl (by push_cast; omega)),
          writeBytes_outside _ _ _ _ (Or.inl (by push_cast; omega))]
        rw [show RECORD_START + st.currentIndex * st.recordSize + ((1 : Nat) : Int) =
          RECORD_START + st.currentIndex * st.recordSize + 1 from by push_cast; ring]
        exact writeB_eq _ _ _
      · by_cases hklen : k < d.toCSV.length + 2
        · rw [if_neg hk0, if_neg hk1, if_pos hklen]
          rw [writeBytes_outside _ _ _ _ (Or.inl (by omega))]
          have hk2 : k - 2 < (d.toCSV.map Char.toNat).length := by
            rw [List.length_map]; omega
          have := writeBytes_at (d.toCSV.map Char.toNat)
            (writeB (writeB m (RECORD_START + st.currentIndex * st.recordSize)
              (d.toCSV.length % 2 ^ 16 / 256 % 256))
              (RECORD_START + st.currentIndex * st.recordSize + 1)
              (d.toCSV.length % 2 ^ 16 % 256))
            (RECORD_START + st.currentIndex * st.recordSize + 2) (k - 2) hk2
          rw [show RECORD_START + st.currentIndex * st.recordSize + (k : Int) =
            RECORD_START + st.currentIndex * st.recordSize + 2 + ((k - 2 : Nat) : Int) from
            by omega]
          exact this
        · rw [if_neg hk0, if_neg hk1, if_neg hklen]
          have hlenfill : k - (d.toCSV.length + 2) <
              (List.replicate (st.recordSize - ((d.toCSV.length : Int) + 2)).toNat 0).length := by
            rw [List.length_replicate]; omega
          rw [show RECORD_START + st.currentIndex * st.recordSize + (k : Int) =
            RECORD_START + st.currentIndex * st.recordSize + ((d.toCSV.length : Int) + 2) +
              ((k - (d.toCSV.length + 2) : Nat) : Int) from by omega]
          rw [writeBytes_at _ _ _ _ hlenfill,
            List.getD_eq_getElem _ _ hlenfill, List.getElem_replicate]
  refine ⟨⟨?_, ?_, ?_⟩, ?_⟩
  · rw [readB, hheader _ (by omega)]
    have h := hslotwrites 0 (by push_cast; omega)
    rw [if_pos rfl] at h
    rw [show RECORD_START + st.currentIndex * st.recordSize =
      RECORD_START + st.currentIndex * st.recordSize + ((0 : Nat) : Int) from by
      push_cast; ring]
    rw [h]
    have : d.toCSV.length % 2 ^ 16 = d.toCSV.length := by omega
    rw [this]
    omega
  · rw [readB, hheader _ (by omega)]
    have h := hslotwrites 1 (by push_cast; omega)
    rw [if_neg (by omega), if_pos rfl] at h
    rw [show RECORD_START + st.currentIndex * st.recordSize + 1 =
      RECORD_START + st.currentIndex * st.recordSize + ((1 : Nat) : Int) from by
      push_cast; ring]
    rw [h]
    have : d.toCSV.length % 2 ^ 16 = d.toCSV.length := by omega
    rw [this]
    omega
  · intro k hk
    rw [readB, hheader _ (by omega)]
    have h := hslotwrites (k + 2) (by push_cast; omega)
    rw [if_neg (by omega), if_neg (by omega), if_pos (by omega)] at h
    rw [show RECORD_START + st.currentIndex * st.recordSize + 2 + (k : Int) =
      RECORD_START + st.currentIndex * st.recordSize + ((k + 2 : Nat) : Int) from by
      push_cast; ring]
    rw [h]
    have hkk : k + 2 - 2 = k := by omega
    rw [hkk]
    have hklen2 : k < (d.toCSV.map Char.toNat).length := by
      rw [List.length_map]; omega
    have hgd : (d.toCSV.map Char.toNat).getD k 0 = (d.toCSV.getD k '0').toNat := by
      rw [List.getD_eq_getElem _ _ hklen2, List.getD_eq_getElem _ _ hk]
      rw [List.getElem_map]
    rw [hgd]
    have hmem : d.toCSV.getD k '0' ∈ d.toCSV := by
      rw [List.getD_eq_getElem _ _ hk]
      exact List.getElem_mem _
    have := toCSV_toNat_lt d _ hmem
    omega
  · intro a ha10 haout
    have hstep1 : savePostMem st m d a =
        writeRecordSlot m (calculateAddress st st.currentIndex) d.toCSV st.recordSize a := by
      rw [savePostMem]
      by_cases hcm : commitsHeader st
      · rw [if_pos hcm, writeHeader, writeHeaderMem_outside _ _ _ _ (Or.inr ha10)]
      · rw [if_neg hcm]
    rw [hstep1]
    exact writeRecordSlot_outside m _ d.toCSV st.recordSize hlen a (by rw [haddr] at *; exact haout)

theorem retrieveData_of_slotHolds (st : StorageState) (m : Mem) (d0 r : SensorData)
    (j : Int) (hinit : st.isInitialized = true)
    (hjc : j < st.recordCount)
    (hs : SlotHolds m st.recordSize j r)
    (hrs : 2 ≤ st.recordSize) (hrs2 : st.recordSize ≤ 2 ^ 15)
    (hlen : (r.toCSV.length : Int) ≤ st.recordSize - 2)
    (hts : r.timestamp < 2 ^ 32) (hst : r.status < 256) :
    retrieveData st m d0 j =
      .ok { values := (d0.values.set 0 (round2 (r.val 0))).set 1 (round2 (r.val 1)),
            timestamp := r.timestamp, status := r.status } := by
  obtain ⟨h1, h2, h3⟩ := hs
  have hlen1 : 1 ≤ r.toCSV.length := toCSV_length_pos r
  have hlen65536 : r.toCSV.length < 65536 := by omega
  have haddr : calculateAddress st j = RECORD_START + j * st.recordSize := rfl
  rw [retrieveData, if_neg (by simp [hinit]), if_neg (by omega), haddr, h1, h2]
  rw [show r.toCSV.length / 256 * 256 + r.toCSV.length % 256 = r.toCSV.length from by omega]
  rw [if_neg (by
    push_neg
    refine ⟨by omega, ?_⟩
    rw [Int.emod_eq_of_lt (by omega) (by omega)]
    omega)]
  have hcsv : (List.range r.toCSV.length).map
      (fun (k : Nat) => Char.ofNat (readB m (RECORD_START + j * st.recordSize + 2 + (k : Int)))) =
      r.toCSV := by
    apply List.ext_getElem
    · simp
    · intro k hk1 hk2
      simp only [List.getElem_map, List.getElem_range]
      have hk3 : k < r.toCSV.length := by simpa using hk2
      rw [h3 k hk3, List.getD_eq_getElem _ _ hk3]
      exact Char.ofNat_toNat _
  rw [hcsv, fromCSV_toCSV d0 r hts hst]

theorem shift_mod (idx maxR : Int) (k : Nat) :
    ((idx + 1) % maxR + (k : Int)) % maxR = (idx + ((k + 1 : Nat) : Int)) % maxR := by
  rw [Int.emod_add_emod]
  congr 1
  push_cast
  ring

/-- One pass of iterated saves from a consistent store state: the resulting
cursor and count, the content of every slot whose record is not later
overwritten, and a frame property for all other record-region addresses. -/
theorem saveList_slots (maxR recS : Int) (hmax : 0 < maxR) (hrs : 2 ≤ recS)
    (hrs2 : recS ≤ 2 ^ 15) :
    ∀ (rs : List SensorData) (st : StorageState) (m : Mem),
      st.maxRecords = maxR → st.recordSize = recS →
      st.eepromLen = RECORD_START + maxR * recS →
      st.isInitialized = true →
      0 ≤ st.currentIndex → st.currentIndex < maxR →
      0 ≤ st.recordCount → st.recordCount ≤ maxR →
      (∀ r ∈ rs, (r.toCSV.length : Int) ≤ recS - 2) →
      ((saveList st m rs).1.maxRecords = maxR ∧
       (saveList st m rs).1.recordSize = recS ∧
       (saveList st m rs).1.eepromLen = RECORD_START + maxR * recS ∧
       (saveList st m rs).1.isInitialized = true ∧
       (saveList st m rs).1.currentIndex = (st.currentIndex + (rs.length : Int)) % maxR ∧
       (saveList st m rs).1.recordCount = min (st.recordCount + (rs.length : Int)) maxR) ∧
      (∀ k : Nat, k < rs.length →
        (∀ k2 : Nat, k < k2 → k2 < rs.length →
          (st.currentIndex + (k2 : Int)) % maxR ≠ (st.currentIndex + (k : Int)) % maxR) →
        SlotHolds (saveList st m rs).2 recS ((st.currentIndex + (k : Int)) % maxR)
          (rs.getD k recNull)) ∧
      (∀ a : Int, 10 ≤ a →
        (∀ k : Nat, k < rs.length →
          ¬ (RECORD_START + ((st.currentIndex + (k : Int)) % maxR) * recS ≤ a ∧
             a < RECORD_START + ((st.currentIndex + (k : Int)) % maxR) * recS + recS)) →
        (saveList st m rs).2 a = m a) := by
  intro rs
  induction rs with
  | nil =>
      intro st m hmx hrs3 hel hin hi0 hi1 hc0 hc1 hfit
      refine ⟨⟨hmx, hrs3, hel, hin, ?_, ?_⟩, ?_, ?_⟩
      · simp only [saveList, List.length_nil, Nat.cast_zero, add_zero]
        exact (Int.emod_eq_of_lt hi0 hi1).symm
      · simp only [saveList, List.length_nil, Nat.cast_zero, add_zero]
        omega
      · intro k hk; simp at hk
      · intro a ha hout; simp [saveList]
  | cons r rs' ih =>
      intro st m hmx hrs3 hel hin hi0 hi1 hc0 hc1 hfit
      have hfitr : (r.toCSV.length : Int) ≤ recS - 2 := hfit r (by simp)
      have hok : saveData st m r = (.ok, savePostState st, savePostMem st m r) := by
        rcases saveData_branches st m r with ⟨hb, -⟩ | ⟨-, hb, -⟩ | ⟨-, -, hb, -⟩ |
          ⟨-, -, -, hb⟩
        · rw [hin] at hb; cases hb
        · rw [hrs3] at hb
          rw [Int.emod_eq_of_lt (by omega) (by omega)] at hb
          omega
        · exfalso
          rw [hel, hrs3] at hb
          have : calculateAddress st st.currentIndex = RECORD_START + st.currentIndex * recS := by
            rw [calculateAddress, hrs3]
          rw [this] at hb
          nlinarith
        · exact hb
      have hsl : saveList st m (r :: rs') =
          saveList (savePostState st) (savePostMem st m r) rs' := by
        rw [saveList, hok]
      have hps := savePostMem_slot st m r (by omega) (by rw [hrs3]; exact hfitr)
        (by omega) hi0
      have hpsfields : (savePostState st).maxRecords = maxR ∧
          (savePostState st).recordSize = recS ∧
          (savePostState st).eepromLen = RECORD_START + maxR * recS ∧
          (savePostState st).isInitialized = true ∧
          (savePostState st).currentIndex = (st.currentIndex + 1) % maxR ∧
          (savePostState st).recordCount = min (st.recordCount + 1) maxR := by
      -- savePostState only changes cursor, count, counter
        refine ⟨hmx, hrs3, hel, hin, ?_, ?_⟩
        · simp [savePostState, hmx]
        · simp only [savePostState]
          rw [hmx]
          omega
      have hidx0 : 0 ≤ (st.currentIndex + 1) % maxR := Int.emod_nonneg _ (by omega)
      have hidx1 : (st.currentIndex + 1) % maxR < maxR := Int.emod_lt_of_pos _ hmax
      have hih := ih (savePostState st) (savePostMem st m r)
        hpsfields.1 hpsfields.2.1 hpsfields.2.2.1 hpsfields.2.2.2.1
        (by rw [hpsfields.2.2.2.2.1]; exact hidx0)
        (by rw [hpsfields.2.2.2.2.1]; exact hidx1)
        (by rw [hpsfields.2.2.2.2.2]; omega)
        (by rw [hpsfields.2.2.2.2.2]; omega)
        (fun r2 hr2 => hfit r2 (by simp [hr2]))
      obtain ⟨⟨hf1, hf2, hf3, hf4, hf5, hf6⟩, hcontent, hframe⟩ := hih
      rw [hpsfields.2.2.2.2.1] at hf5
      rw [hpsfields.2.2.2.2.2] at hf6
      refine ⟨⟨by rw [hsl]; exact hf1, by rw [hsl]; exact hf2, by rw [hsl]; exact hf3,
        by rw [hsl]; exact hf4, ?_, ?_⟩, ?_, ?_⟩
      · rw [hsl, hf5, shift_mod]
        simp
      · rw [hsl, hf6]
        simp only [List.length_cons]
        push_cast
        omega
      · intro k hk hno
        rw [hsl]
        cases k with
        | zero =>
            have hslot0 : SlotHolds (savePostMem st m r) recS st.currentIndex r := by
              have := hps.1
              rw [hrs3] at this
              exact this
            have heq0 : (st.currentIndex + ((0 : Nat) : Int)) % maxR = st.currentIndex := by
              simp [Int.emod_eq_of_lt hi0 hi1]
            rw [heq0]
            have hpres : ∀ a : Int, RECORD_START + st.currentIndex * recS ≤ a →
                a < RECORD_START + st.currentIndex * recS + recS →
                (saveList (savePostState st) (savePostMem st m r) rs').2 a =
                  savePostMem st m r a := by
              intro a ha1 ha2
              apply hframe
              · have hmn : 0 ≤ st.currentIndex * recS := mul_nonneg hi0 (by omega)
                have hrs10 : RECORD_START = (10 : Int) := rfl
                omega
              · intro k2 hk2 hcontra
                have hj2 : (((savePostState st).currentIndex + (k2 : Int)) % maxR) =
                    st.currentIndex := by
                  have hd := slot_region_disjoint recS (by omega)
                    (((savePostState st).currentIndex + (k2 : Int)) % maxR)
                    st.currentIndex a hcontra.1 hcontra.2 ha1 ha2
                  exact hd
                rw [hpsfields.2.2.2.2.1, shift_mod] at hj2
                have := hno (k2 + 1) (by omega) (by simpa using Nat.succ_lt_succ hk2)
                rw [hj2] at this
                exact this (by simp [Int.emod_eq_of_lt hi0 hi1])
            have := SlotHolds_frame (savePostMem st m r) _ recS st.currentIndex r
              hfitr hpres hslot0
            simpa using this
        | succ k' =>
            have hk' : k' < rs'.length := by simpa using hk
            have hshift : (st.currentIndex + ((k' + 1 : Nat) : Int)) % maxR =
                ((savePostState st).currentIndex + (k' : Int)) % maxR := by
              rw [hpsfields.2.2.2.2.1, shift_mod]
            rw [show ((Nat.succ k' : Nat) : Int) = ((k' + 1 : Nat) : Int) from rfl, hshift]
            have hno' : ∀ k2 : Nat, k' < k2 → k2 < rs'.length →
                ((savePostState st).currentIndex + (k2 : Int)) % maxR ≠
                  ((savePostState st).currentIndex + (k' : Int)) % maxR := by
              intro k2 hk2a hk2b
              rw [hpsfields.2.2.2.2.1, shift_mod, shift_mod]
              exact hno (k2 + 1) (by omega) (by simpa using Nat.succ_lt_succ hk2b)
            have := hcontent k' hk' hno'
            simpa using this
      · intro a ha hout
        rw [hsl]
        have hstep : (saveList (savePostState st) (savePostMem st m r) rs').2 a =
            savePostMem st m r a := by
          apply hframe a ha
          intro k2 hk2
          have := hout (k2 + 1) (by simpa using Nat.succ_lt_succ hk2)
          rw [hpsfields.2.2.2.2.1, shift_mod]
          exact this
        rw [hstep]
        apply hps.2 a ha
        have h0 := hout 0 (by simp)
        have hidx : (st.currentIndex + ((0 : Nat) : Int)) % maxR = st.currentIndex := by
          simp [Int.emod_eq_of_lt hi0 hi1]
        rw [hidx] at h0
        rw [hrs3]
        omega

theorem mod_ne_of_window (maxR k k2 : Int) (_hmax : 0 < maxR)
    (hlt : k < k2) (hwin : k2 - k < maxR) : k2 % maxR ≠ k % maxR := by
  intro h
  have h0 : (k2 - k) % maxR = 0 := Int.emod_eq_emod_iff_emod_sub_eq_zero.mp h
  rw [Int.emod_eq_of_lt (by omega) (by omega)] at h0
  omega

def retrievable_canon (d0 r : SensorData) : SensorData :=
  { values := (d0.values.set 0 (round2 (r.val 0))).set 1 (round2 (r.val 1)),
    timestamp := r.timestamp, status := r.status }

/-- C1: corrected form of the ring-buffer overwrite claim. After saving a
sequence of at least maxRecords records into an empty store, the store is at
capacity, and the records still present are exactly the LAST maxRecords ones
saved; but each surviving record number k is found at PHYSICAL slot k %
maxRecords, not at logical position k - (length - maxRecords): retrieve uses
the raw index as the slot number with no offset by the ring cursor. -/
theorem C1_overwrite_physical_slots (maxR recS : Int) (hmax : 0 < maxR)
    (hrs : 2 ≤ recS) (hrs2 : recS ≤ 2 ^ 15) (rs : List SensorData)
    (st : StorageState) (m : Mem) (d0 : SensorData)
    (hmx : st.maxRecords = maxR) (hrsz : st.recordSize = recS)
    (hel : st.eepromLen = RECORD_START + maxR * recS)
    (hin : st.isInitialized = true)
    (hi : st.currentIndex = 0) (hc : st.recordCount = 0)
    (hfit : ∀ r ∈ rs, (r.toCSV.length : Int) ≤ recS - 2)
    (hts : ∀ r ∈ rs, r.timestamp < 2 ^ 32) (hstat : ∀ r ∈ rs, r.status < 256)
    (hn : maxR ≤ (rs.length : Int)) :
    (saveList st m rs).1.recordCount = maxR ∧
    ∀ k : Nat, k < rs.length → (rs.length : Int) - maxR ≤ (k : Int) →
      retrieveData (saveList st m rs).1 (saveList st m rs).2 d0 ((k : Int) % maxR) =
        .ok (retrievable_canon d0 (rs.getD k recNull)) := by
  obtain ⟨⟨hf1, hf2, hf3, hf4, hf5, hf6⟩, hcontent, -⟩ :=
    saveList_slots maxR recS hmax hrs hrs2 rs st m hmx hrsz hel hin
      (by omega) (by omega) (by omega) (by omega) hfit
  constructor
  · rw [hf6, hc]; omega
  · intro k hk hwin
    have hmem : rs.getD k recNull ∈ rs := by
      rw [List.getD_eq_getElem _ _ hk]; exact List.getElem_mem _
    have hno : ∀ k2 : Nat, k < k2 → k2 < rs.length →
        (st.currentIndex + (k2 : Int)) % maxR ≠ (st.currentIndex + (k : Int)) % maxR := by
      intro k2 hk2a hk2b
      rw [hi, zero_add, zero_add]
      have hk2c : (k2 : Int) < (rs.length : Int) := by exact_mod_cast hk2b
      exact mod_ne_of_window maxR k k2 hmax (by exact_mod_cast hk2a) (by omega)
    have hslot := hcontent k hk hno
    rw [hi, zero_add] at hslot
    exact retrieveData_of_slotHolds _ _ _ _ _ hf4
      (by rw [hf6, hc, zero_add]
          have h1 : ((k : Int)) % maxR < maxR := Int.emod_lt_of_pos _ hmax
          omega)
      (by rw [hf2]; exact hslot)
      (by rw [hf2]; exact hrs) (by rw [hf2]; exact hrs2)
      (by rw [hf2]; exact hfit _ hmem) (hts _ hmem) (hstat _ hmem)

/-- C10: the prefix/invariant claim. (a) In every reachable state that is not
at capacity the cursor equals the record count, so the occupied slots are
exactly 0..count-1. (b) As long as no wraparound has occurred (at most
maxRecords records saved into an empty store), retrieve(i) returns the i-th
record saved, in insertion order. -/
theorem C10_prefix_occupancy :
    (∀ st : StorageState, Reach st → 0 < st.maxRecords →
      st.recordCount < st.maxRecords → st.currentIndex = st.recordCount) ∧
    (∀ (maxR recS : Int), 0 < maxR → 2 ≤ recS → recS ≤ 2 ^ 15 →
      ∀ (rs : List SensorData) (st : StorageState) (m : Mem) (d0 : SensorData),
      st.maxRecords = maxR → st.recordSize = recS →
      st.eepromLen = RECORD_START + maxR * recS →
      st.isInitialized = true →
      st.currentIndex = 0 → st.recordCount = 0 →
      (∀ r ∈ rs, (r.toCSV.length : Int) ≤ recS - 2) →
      (∀ r ∈ rs, r.timestamp < 2 ^ 32) → (∀ r ∈ rs, r.status < 256) →
      (rs.length : Int) ≤ maxR →
      ∀ k : Nat, k < rs.length →
        retrieveData (saveList st m rs).1 (saveList st m rs).2 d0 (k : Int) =
          .ok (retrievable_canon d0 (rs.getD k recNull))) := by
  constructor
  · intro st h hpos hlt
    exact ((reach_invariant st h) hpos).2.2.2.2 hlt
  · intro maxR recS hmax hrs hrs2 rs st m d0 hmx hrsz hel hin hi hc hfit hts hstat hn k hk
    obtain ⟨⟨hf1, hf2, hf3, hf4, hf5, hf6⟩, hcontent, -⟩ :=
      saveList_slots maxR recS hmax hrs hrs2 rs st m hmx hrsz hel hin
        (by omega) (by omega) (by omega) (by omega) hfit
    have hmem : rs.getD k recNull ∈ rs := by
      rw [List.getD_eq_getElem _ _ hk]; exact List.getElem_mem _
    have hkZ : (k : Int) < maxR := by
      have : (k : Int) < (rs.length : Int) := by exact_mod_cast hk
      omega
    have hk0 : (0 : Int) ≤ (k : Int) := by positivity
    have hno : ∀ k2 : Nat, k < k2 → k2 < rs.length →
        (st.currentIndex + (k2 : Int)) % maxR ≠ (st.currentIndex + (k : Int)) % maxR := by
      intro k2 hk2a hk2b
      rw [hi, zero_add, zero_add]
      have hk2c : (k2 : Int) < (rs.length : Int) := by exact_mod_cast hk2b
      exact mod_ne_of_window maxR k k2 hmax (by exact_mod_cast hk2a) (by omega)
    have hslot := hcontent k hk hno
    rw [hi, zero_add, Int.emod_eq_of_lt hk0 hkZ] at hslot
    exact retrieveData_of_slotHolds _ _ _ _ _ hf4
      (by rw [hf6, hc, zero_add]
          have : (k : Int) < (rs.length : Int) := by exact_mod_cast hk
          omega)
      (by rw [hf2]; exact hslot)
      (by rw [hf2]; exact hrs) (by rw [hf2]; exact hrs2)
      (by rw [hf2]; exact hfit _ hmem) (hts _ hmem) (hstat _ hmem)

/-- C6: encode/decode round trip. For every record, fromCSV applied to the
toCSV encoding succeeds, reproducing the timestamp and status exactly and
each of the SENSOR_COUNT sensor values rounded to 2 decimal places (the
dtostrf display precision), provided the timestamp fits in the unsigned
32-bit field and the status in the uint8_t field the CSV schema carries. -/
theorem C6_csv_round_trip (d r : SensorData) (hts : r.timestamp < 2 ^ 32)
    (hst : r.status < 256) :
    SensorData.fromCSV d r.toCSV =
      some { values := (d.values.set 0 (round2 (r.val 0))).set 1 (round2 (r.val 1)),
             timestamp := r.timestamp, status := r.status } :=
  fromCSV_toCSV d r hts hst

/-- C6 witness: the record (timestamp 5, values 1.23 and -2.5, status 1)
encodes and decodes back to itself (its values are exact at 2 decimals). -/
theorem C6_csv_round_trip_witness :
    SensorData.fromCSV recNull (sampleRec 5 (mkRat 123 100) (mkRat (-5) 2)).toCSV =
      some { values := [mkRat 123 100, mkRat (-5) 2, 0, 0, 0, 0],
             timestamp := 5, status := 1 } :=
  (C6_csv_round_trip recNull (sampleRec 5 (mkRat 123 100) (mkRat (-5) 2))
    (by decide) (by decide)).trans (by decide)

/-- C1 witness: capacity 3, saves with timestamps 1,2,3,4. The store ends at
capacity, and the fourth record (k = 3, in the surviving window) is found at
physical slot 3 % 3 = 0. -/
theorem C1_overwrite_physical_slots_witness :
    (saveList stStart memZero
      [sampleRec 1 1 2, sampleRec 2 3 4, sampleRec 3 5 6,
       sampleRec 4 7 8]).1.recordCount = 3 ∧
    retrieveData
      (saveList stStart memZero
        [sampleRec 1 1 2, sampleRec 2 3 4, sampleRec 3 5 6, sampleRec 4 7 8]).1
      (saveList stStart memZero
        [sampleRec 1 1 2, sampleRec 2 3 4, sampleRec 3 5 6, sampleRec 4 7 8]).2
      recNull (((3 : Nat) : Int) % 3) =
      .ok (retrievable_canon recNull
        ([sampleRec 1 1 2, sampleRec 2 3 4, sampleRec 3 5 6,
          sampleRec 4 7 8].getD 3 recNull)) := by
  have h := C1_overwrite_physical_slots 3 32 (by decide) (by decide) (by decide)
    [sampleRec 1 1 2, sampleRec 2 3 4, sampleRec 3 5 6, sampleRec 4 7 8]
    stStart memZero recNull rfl rfl rfl rfl rfl rfl
    (by decide) (by decide) (by decide) (by decide)
  exact ⟨h.1, h.2 3 (by decide) (by decide)⟩

/-- C1 counterexample: the spec's scenario is false as stated. Capacity 3,
records A,B,C,D saved in order with timestamps 1,2,3,4: the spec says
retrieve(0) == B (timestamp 2) and retrieve(2) == D, but retrieveData reads
the raw index as a physical slot number, so retrieve(0) returns D (timestamp
4, which overwrote slot 0) and retrieve(1) returns B (timestamp 2). -/
theorem C1_counterexample_retrieve_zero_not_oldest :
    (saveList stStart memZero
      [sampleRec 1 1 2, sampleRec 2 3 4, sampleRec 3 5 6,
       sampleRec 4 7 8]).1.recordCount = 3 ∧
    retrieveData
      (saveList stStart memZero
        [sampleRec 1 1 2, sampleRec 2 3 4, sampleRec 3 5 6, sampleRec 4 7 8]).1
      (saveList stStart memZero
        [sampleRec 1 1 2, sampleRec 2 3 4, sampleRec 3 5 6, sampleRec 4 7 8]).2
      recNull 0 =
      .ok { values := [7, 8, 0, 0, 0, 0], timestamp := 4, status := 1 } ∧
    retrieveData
      (saveList stStart memZero
        [sampleRec 1 1 2, sampleRec 2 3 4, sampleRec 3 5 6, sampleRec 4 7 8]).1
      (saveList stStart memZero
        [sampleRec 1 1 2, sampleRec 2 3 4, sampleRec 3 5 6, sampleRec 4 7 8]).2
      recNull 1 =
      .ok { values := [3, 4, 0, 0, 0, 0], timestamp := 2, status := 1 } := by
  decide

/-- C10 witness: the cleared capacity-3 store (reachable by Reach.start)
satisfies cursor = count, and after saving two records into it, retrieve at
index 0 returns the first record saved. -/
theorem C10_prefix_occupancy_witness :
    stStart.currentIndex = stStart.recordCount ∧
    retrieveData
      (saveList stStart memZero [sampleRec 1 1 2, sampleRec 2 3 4]).1
      (saveList stStart memZero [sampleRec 1 1 2, sampleRec 2 3 4]).2
      recNull ((0 : Nat) : Int) =
      .ok (retrievable_canon recNull
        ([sampleRec 1 1 2, sampleRec 2 3 4].getD 0 recNull)) := by
  refine ⟨C10_prefix_occupancy.1 stStart (Reach.start 3 32 106 0)
    (by decide) (by decide), ?_⟩
  exact C10_prefix_occupancy.2 3 32 (by decide) (by decide) (by decide)
    [sampleRec 1 1 2, sampleRec 2 3 4] stStart memZero recNull
    rfl rfl rfl rfl rfl rfl (by decide) (by decide) (by decide) (by decide)
    0 (by decide)

/-- Loop invariants of uploadAllData's record loop: the attempted-index list
stays strictly increasing, every attempted index is within both the total
and the batch bound, and an index whose outcome is a non-NOT_FOUND patch
failure can only be the last one attempted. -/
theorem uploadLoop_attempts (st : StorageState) (m : Mem)
    (outcome : Nat → UploadOutcome) (total : Int) (d0 : SensorData) :
    ∀ (fuel i uploaded : Nat) (acc : List Nat),
      (∀ x ∈ acc, x < i) →
      acc.Pairwise (· < ·) →
      (∀ x ∈ acc, (x : Int) < total ∧ x < BATCH_SIZE) →
      (∀ x ∈ acc, outcome x ≠ .otherFail) →
      (uploadLoop st m outcome total d0 fuel i uploaded acc).2.Pairwise (· < ·) ∧
      (∀ x ∈ (uploadLoop st m outcome total d0 fuel i uploaded acc).2,
        (x : Int) < total ∧ x < BATCH_SIZE) ∧
      (∀ x ∈ (uploadLoop st m outcome total d0 fuel i uploaded acc).2,
        outcome x = .otherFail →
        ∀ y ∈ (uploadLoop st m outcome total d0 fuel i uploaded acc).2, y ≤ x) := by
  intro fuel
  induction fuel with
  | zero =>
      intro i uploaded acc hlt hpw hbd hof
      rw [uploadLoop]
      exact ⟨hpw, hbd, fun x hx hx2 => absurd hx2 (hof x hx)⟩
  | succ fuel ih =>
      intro i uploaded acc hlt hpw hbd hof
      rw [uploadLoop]
      by_cases hcond : (i : Int) < total ∧ i < BATCH_SIZE
      · rw [if_pos hcond]
        have hlt' : ∀ x ∈ acc ++ [i], x < i + 1 := by
          intro x hx
          rcases List.mem_append.mp hx with hx | hx
          · exact Nat.lt_succ_of_lt (hlt x hx)
          · simp at hx; omega
        have hpw' : (acc ++ [i]).Pairwise (· < ·) := by
          rw [List.pairwise_append]
          refine ⟨hpw, List.pairwise_singleton _ _, fun x hx y hy => ?_⟩
          simp at hy; subst hy; exact hlt x hx
        have hbd' : ∀ x ∈ acc ++ [i], (x : Int) < total ∧ x < BATCH_SIZE := by
          intro x hx
          rcases List.mem_append.mp hx with hx | hx
          · exact hbd x hx
          · simp at hx; subst hx; exact hcond
        cases hret : retrieveData st m d0 (i : Int) with
        | ok r =>
            cases hout : outcome i with
            | success =>
                exact ih (i + 1) (uploaded + 1) (acc ++ [i]) hlt' hpw' hbd'
                  (fun x hx => by
                    rcases List.mem_append.mp hx with hx2 | hx2
                    · exact hof x hx2
                    · simp at hx2; subst hx2; rw [hout]; decide)
            | notFoundCreateOk =>
                exact ih (i + 1) (uploaded + 1) (acc ++ [i]) hlt' hpw' hbd'
                  (fun x hx => by
                    rcases List.mem_append.mp hx with hx2 | hx2
                    · exact hof x hx2
                    · simp at hx2; subst hx2; rw [hout]; decide)
            | notFoundCreateFail =>
                exact ih (i + 1) uploaded (acc ++ [i]) hlt' hpw' hbd'
                  (fun x hx => by
                    rcases List.mem_append.mp hx with hx2 | hx2
                    · exact hof x hx2
                    · simp at hx2; subst hx2; rw [hout]; decide)
            | otherFail =>
                refine ⟨hpw', hbd', fun x hx hxo y hy => ?_⟩
                rcases List.mem_append.mp hx with hx2 | hx2
                · exact absurd hxo (hof x hx2)
                · simp at hx2; subst hx2
                  rcases List.mem_append.mp hy with hy2 | hy2
                  · exact le_of_lt (hlt y hy2)
                  · simp at hy2; omega
        | notInitialized =>
            exact ih (i + 1) uploaded acc (fun x hx => Nat.lt_succ_of_lt (hlt x hx))
              hpw hbd hof
        | indexOutOfRange =>
            exact ih (i + 1) uploaded acc (fun x hx => Nat.lt_succ_of_lt (hlt x hx))
              hpw hbd hof
        | invalidLength =>
            exact ih (i + 1) uploaded acc (fun x hx => Nat.lt_succ_of_lt (hlt x hx))
              hpw hbd hof
        | decodeFailed =>
            exact ih (i + 1) uploaded acc (fun x hx => Nat.lt_succ_of_lt (hlt x hx))
              hpw hbd hof
      · rw [if_neg hcond]
        exact ⟨hpw, hbd, fun x hx hx2 => absurd hx2 (hof x hx)⟩

/-- C2 (amended): with all guard flags up, the upload cycle emits the peer
CLEAR signal (exactly once) and clears the store precisely when the
uploaded count equals the batch limit or equals the record count at cycle
start; when the signal is emitted the whole store is wiped (count and
cursor zero) — including, when more than BATCH_SIZE records were stored,
records beyond the batch that were never uploaded — and when it is not
emitted the store and the medium are untouched. -/
theorem C2_clear_policy (wifi fbReady fbOk : Bool) (st : StorageState) (m : Mem)
    (outcome : Nat → UploadOutcome) (d0 : SensorData)
    (hw : wifi = true) (hf : fbReady = true) (ho : fbOk = true) :
    ((uploadAllData wifi fbReady fbOk st m outcome d0).2.1 = 1 ↔
      ((uploadAllData wifi fbReady fbOk st m outcome d0).1 = BATCH_SIZE ∨
       (((uploadAllData wifi fbReady fbOk st m outcome d0).1 : Int) =
         st.recordCount))) ∧
    ((uploadAllData wifi fbReady fbOk st m outcome d0).2.1 = 1 →
      (uploadAllData wifi fbReady fbOk st m outcome d0).2.2.1.recordCount = 0 ∧
      (uploadAllData wifi fbReady fbOk st m outcome d0).2.2.1.currentIndex = 0) ∧
    ((uploadAllData wifi fbReady fbOk st m outcome d0).2.1 ≠ 1 →
      (uploadAllData wifi fbReady fbOk st m outcome d0).2.2.1 = st ∧
      (uploadAllData wifi fbReady fbOk st m outcome d0).2.2.2.1 = m) := by
  subst hw; subst hf; subst ho
  rw [uploadAllData, if_neg (by simp), if_neg (by simp), if_neg (by simp)]
  dsimp only
  split
  · next h =>
      refine ⟨iff_of_true rfl h, fun _ => ?_, fun hne => absurd rfl hne⟩
      rw [clearStorage_state]
      exact ⟨rfl, rfl⟩
  · next h =>
      exact ⟨iff_of_false (show ¬((0 : Nat) = 1) by omega) h,
        fun h1 => absurd h1 (show ¬((0 : Nat) = 1) by omega),
        fun _ => ⟨rfl, rfl⟩⟩

/-- C4 (amended): with all guard flags up, the indices attempted in an
upload cycle (those reaching the patchDocument call) form a strictly
increasing sequence, each within both the batch limit and the record count
at cycle start; only a patch failure whose error is not NOT_FOUND ends the
attempts (such an index is the last one attempted). A NOT_FOUND patch
failure whose createDocument fallback also fails does NOT stop the loop,
and a record that fails to retrieve or decode is skipped rather than
ending the cycle, so the attempted set need not be a prefix ending at the
first failure. -/
theorem C4_attempt_order (wifi fbReady fbOk : Bool) (st : StorageState) (m : Mem)
    (outcome : Nat → UploadOutcome) (d0 : SensorData)
    (hw : wifi = true) (hf : fbReady = true) (ho : fbOk = true) :
    (uploadAllData wifi fbReady fbOk st m outcome d0).2.2.2.2.Pairwise (· < ·) ∧
    (∀ x ∈ (uploadAllData wifi fbReady fbOk st m outcome d0).2.2.2.2,
      (x : Int) < st.recordCount ∧ x < BATCH_SIZE) ∧
    (∀ x ∈ (uploadAllData wifi fbReady fbOk st m outcome d0).2.2.2.2,
      outcome x = .otherFail →
      ∀ y ∈ (uploadAllData wifi fbReady fbOk st m outcome d0).2.2.2.2, y ≤ x) := by
  subst hw; subst hf; subst ho
  have h := uploadLoop_attempts st m outcome st.recordCount d0 BATCH_SIZE 0 0 []
    (by simp) (by simp) (by simp) (by simp)
  have hatt : (uploadAllData true true true st m outcome d0).2.2.2.2 =
      (uploadLoop st m outcome st.recordCount d0 BATCH_SIZE 0 0 []).2 := by
    rw [uploadAllData, if_neg (by simp), if_neg (by simp), if_neg (by simp)]
    dsimp only
    split
    · rfl
    · rfl
  rw [hatt]
  exact h

/-- C2 witness: an empty store with all flags up: zero uploads equals the
zero records available, so the CLEAR signal is emitted and the (already
empty) store is cleared. -/
theorem C2_clear_policy_witness :
    (uploadAllData true true true stStart memZero
      (fun _ => UploadOutcome.success) recNull).2.1 = 1 ∧
    (uploadAllData true true true stStart memZero
      (fun _ => UploadOutcome.success) recNull).2.2.1.recordCount = 0 ∧
    (uploadAllData true true true stStart memZero
      (fun _ => UploadOutcome.success) recNull).2.2.1.currentIndex = 0 := by
  have h := C2_clear_policy true true true stStart memZero
    (fun _ => UploadOutcome.success) recNull rfl rfl rfl
  have h1 : (uploadAllData true true true stStart memZero
      (fun _ => UploadOutcome.success) recNull).2.1 = 1 :=
    h.1.mpr (Or.inr (by decide))
  exact ⟨h1, (h.2.1 h1).1, (h.2.1 h1).2⟩

/-- A cleared store with capacity 11 and 16-byte slots on a 186-byte
medium, for the over-batch upload scenario. -/
def stStart11 : StorageState :=
  { maxRecords := 11, recordSize := 16, currentIndex := 0, recordCount := 0,
    isInitialized := true, writeCounter := 0, eepromLen := 186 }

/-- Eleven small records with timestamps 1..11. -/
def rs11 : List SensorData :=
  [sampleRec 1 0 0, sampleRec 2 0 0, sampleRec 3 0 0, sampleRec 4 0 0,
   sampleRec 5 0 0, sampleRec 6 0 0, sampleRec 7 0 0, sampleRec 8 0 0,
   sampleRec 9 0 0, sampleRec 10 0 0, sampleRec 11 0 0]

set_option maxRecDepth 40000 in
/-- C2 counterexample: the claim's "a clear never discards a record that
was not successfully uploaded in that cycle" is false. With 11 records
stored and every transport call succeeding, the cycle uploads only the
BATCH_SIZE = 10 first records (indices 0..9 attempted), emits the CLEAR
signal because uploaded equals the batch limit, and clearStorage wipes the
whole store — discarding record index 10 (timestamp 11), which was
retrievable before the clear and was never attempted. -/
theorem C2_counterexample_clear_discards_unuploaded :
    (saveList stStart11 memZero rs11).1.recordCount = 11 ∧
    retrieveData (saveList stStart11 memZero rs11).1
      (saveList stStart11 memZero rs11).2 recNull 10 =
      .ok { values := [0, 0, 0, 0, 0, 0], timestamp := 11, status := 1 } ∧
    (uploadAllData true true true (saveList stStart11 memZero rs11).1
      (saveList stStart11 memZero rs11).2
      (fun _ => UploadOutcome.success) recNull).1 = 10 ∧
    (uploadAllData true true true (saveList stStart11 memZero rs11).1
      (saveList stStart11 memZero rs11).2
      (fun _ => UploadOutcome.success) recNull).2.2.2.2 =
      [0, 1, 2, 3, 4, 5, 6, 7, 8, 9] ∧
    (uploadAllData true true true (saveList stStart11 memZero rs11).1
      (saveList stStart11 memZero rs11).2
      (fun _ => UploadOutcome.success) recNull).2.1 = 1 ∧
    (uploadAllData true true true (saveList stStart11 memZero rs11).1
      (saveList stStart11 memZero rs11).2
      (fun _ => UploadOutcome.success) recNull).2.2.1.recordCount = 0 := by
  decide

/-- C4 witness: a two-record store with every transport call succeeding:
the attempted indices are 0 then 1, strictly increasing. -/
theorem C4_attempt_order_witness :
    (uploadAllData true true true
      (saveList stStart memZero [sampleRec 1 1 2, sampleRec 2 3 4]).1
      (saveList stStart memZero [sampleRec 1 1 2, sampleRec 2 3 4]).2
      (fun _ => UploadOutcome.success) recNull).2.2.2.2 = [0, 1] ∧
    ((uploadAllData true true true
      (saveList stStart memZero [sampleRec 1 1 2, sampleRec 2 3 4]).1
      (saveList stStart memZero [sampleRec 1 1 2, sampleRec 2 3 4]).2
      (fun _ => UploadOutcome.success) recNull).2.2.2.2).Pairwise (· < ·) :=
  ⟨by decide,
   (C4_attempt_order true true true
     (saveList stStart memZero [sampleRec 1 1 2, sampleRec 2 3 4]).1
     (saveList stStart memZero [sampleRec 1 1 2, sampleRec 2 3 4]).2
     (fun _ => UploadOutcome.success) recNull rfl rfl rfl).1⟩

/-- C4 counterexample: the upload of record 0 fails (patchDocument reports
NOT_FOUND and the createDocument fallback fails too, so nothing was
uploaded for it), yet the loop goes on and attempts — and uploads — record
1: the attempted list is [0, 1], not a prefix stopping at the first
failure. -/
theorem C4_counterexample_continues_after_failure :
    (fun i => if i = 0 then UploadOutcome.notFoundCreateFail
              else UploadOutcome.success : Nat → UploadOutcome) 0 =
      UploadOutcome.notFoundCreateFail ∧
    (uploadAllData true true true
      (saveList stStart memZero [sampleRec 1 1 2, sampleRec 2 3 4]).1
      (saveList stStart memZero [sampleRec 1 1 2, sampleRec 2 3 4]).2
      (fun i => if i = 0 then UploadOutcome.notFoundCreateFail
                else UploadOutcome.success) recNull).1 = 1 ∧
    (uploadAllData true true true
      (saveList stStart memZero [sampleRec 1 1 2, sampleRec 2 3 4]).1
      (saveList stStart memZero [sampleRec 1 1 2, sampleRec 2 3 4]).2
      (fun i => if i = 0 then UploadOutcome.notFoundCreateFail
                else UploadOutcome.success) recNull).2.2.2.2 = [0, 1] := by
  decide

end LocalOOP
